import Mathlib

/-!
Verification development for the deprecated-symbol usage analyzer of the
prettier-max repository.  The definitions below are a shallow embedding of
the analyzer implemented in the richest checker variant of the repository
(the `checkDeprecatedUsage` / `runTypeScriptCheck` family): suppression
directive scanning, the JSDoc deprecation resolver, the AST visitor with
its scope-skip rules, the diagnostic aggregator with de-duplication, and
the unused-suppression reconciliation pass.
-/

namespace PrettierMax

/-- Single-quote character as a string; used when assembling diagnostic and
log messages of the form PMAX001: 'name' is deprecated. -/
def squote : String := String.singleton (Char.ofNat 39)

/-- One JSDoc tag as surfaced by the TypeScript API (`symbol.getJsDocTags`):
a tag name together with the optional list of text parts.  `tag.text` may be
`undefined` in the API, modelled as `none`; a present but empty part list is
`some []`. -/
structure JSDocTag where
  name : String
  text : Option (List String)

/-- Abstract symbol handle, mirroring what the checker consumes from a
TypeScript `Symbol`:
* `name` is `symbol.getName()`;
* `tags` is the result of `symbol.getJsDocTags(checker)`, with `none`
  modelling the call throwing (the source wraps it in try/catch);
* `legacyDeprecated` is whether `ts.getCombinedModifierFlags(valueDeclaration)`
  has `ModifierFlags.Deprecated` set;
* `hasValueDecl` is whether `symbol.valueDeclaration` is defined;
* `aliasTarget` is the result of `checker.getAliasedSymbol`, `none` when the
  call yields nothing useful (the source guards with `aliasedSymbol ||
  importedSymbol`). -/
inductive Symbol where
  | mk (name : String) (tags : Option (List JSDocTag)) (legacyDeprecated : Bool)
      (hasValueDecl : Bool) (aliasTarget : Option Symbol)

def Symbol.name : Symbol → String
  | .mk n _ _ _ _ => n

def Symbol.tags : Symbol → Option (List JSDocTag)
  | .mk _ t _ _ _ => t

def Symbol.legacyDeprecated : Symbol → Bool
  | .mk _ _ l _ _ => l

def Symbol.hasValueDecl : Symbol → Bool
  | .mk _ _ _ v _ => v

def Symbol.aliasTarget : Symbol → Option Symbol
  | .mk _ _ _ _ a => a

/-- Embedding of `getDeprecationMessage` (part_003 lines 299-312): look up the
JSDoc tag named "deprecated"; when it exists and its `text` is defined, return
the concatenation of the text parts; any exception from `getJsDocTags`
(modelled by `tags = none`) is swallowed and yields `undefined`. -/
def getDeprecationMessage (symbol : Symbol) : Option String :=
  match symbol.tags with
  | none => none
  | some tags =>
    match tags.find? (fun t => t.name == "deprecated") with
    | some t =>
      match t.text with
      | some parts => some (String.join parts)
      | none => none
    | none => none

/-- The obsolescence resolver as specified in section 4.2 of the spec: a
symbol is obsolete when a documentation tag named "deprecated" is present
(regardless of its text) or, as a fallback, when the legacy deprecated
modifier flag is set on its value declaration.  This definition follows the
SPEC text and is used to compare the spec against the code's skip logic. -/
def isObsoleteSpec (s : Symbol) : Bool :=
  (match s.tags with
   | some tags => tags.any (fun t => t.name == "deprecated")
   | none => false) || (s.hasValueDecl && s.legacyDeprecated)

/-- A symbol is obsolete in the sense actually used by the code when either
the JSDoc path yields a message or the legacy modifier flag path fires. -/
def codeObsolete (s : Symbol) : Bool :=
  (getDeprecationMessage s).isSome || (s.hasValueDecl && s.legacyDeprecated)

/-- A comment range as returned by `ts.getLeadingCommentRanges` /
`ts.getTrailingCommentRanges`: the absolute start position `pos` (used by the
scanner's processed-comments set), the 0-based line of `pos`, and the full
comment text `sourceText.substring(comment.pos, comment.end)` including the
comment delimiters. -/
structure CommentRange where
  pos : Nat := 0
  line0 : Nat := 0
  text : String := ""

/-- Location and comment metadata of a node: 0-based line and character of
`node.getStart()`, plus the leading comments at `node.getFullStart()` and the
trailing comments at `node.getEnd()`. -/
structure NodeMeta where
  line0 : Nat := 0
  col0 : Nat := 0
  leading : List CommentRange := []
  trailing : List CommentRange := []

/-- The whitespace characters of the claim's directive grammar, between the
two slashes and the token of a single-line comment (no line break can occur
inside a single-line comment). -/
def jsWhitespace (c : Char) : Bool :=
  c == ' ' || c == '\t' || c == '\r'

/-- The directive token of the suppression comment syntax. -/
def directiveTokenChars : List Char := "@prettier-max-ignore-deprecated".toList

/-- The ECMAScript whitespace class matched by a regex \s atom: tab, line
feed, vertical tab, form feed, carriage return, space, no-break space, the
Unicode space separators, the line and paragraph separators, and the BOM.
Note that the class contains the line terminators, so a \s* run may span
line breaks. -/
def jsRegexSpace (c : Char) : Bool :=
  c == '\t' || c == '\n' || c.toNat == 11 || c.toNat == 12 || c == '\r' ||
    c == ' ' || c.toNat == 0xa0 || c.toNat == 0x1680 ||
    (0x2000 ≤ c.toNat && c.toNat ≤ 0x200a) ||
    c.toNat == 0x2028 || c.toNat == 0x2029 || c.toNat == 0x202f ||
    c.toNat == 0x205f || c.toNat == 0x3000 || c.toNat == 0xfeff

/-- The ECMAScript LineTerminator set: line feed, carriage return, line
separator, paragraph separator.  With the multiline flag, a caret matches
right after any of these and a dollar right before any of these. -/
def jsLineTerminator (c : Char) : Bool :=
  c == '\n' || c == '\r' || c.toNat == 0x2028 || c.toNat == 0x2029

/-- The capture group of the directive regex of part_003 line 346, computed
from the characters that follow the token: an optional colon, then a greedy
whitespace run (which, being \s*, may cross line breaks), then the capture
takes every character up to the next line terminator or the end of the
text.  When nothing at all follows the token the optional group cannot
participate (an optional group may not match the empty string), so the
capture is undefined. -/
def directiveCaptureOf : List Char → Option String
  | [] => none
  | ':' :: r =>
    some (String.mk ((r.dropWhile jsRegexSpace).takeWhile (fun c => !jsLineTerminator c)))
  | r =>
    some (String.mk ((r.dropWhile jsRegexSpace).takeWhile (fun c => !jsLineTerminator c)))

/-- Attempt to match the body of the directive regex starting exactly at the
head of the list (the caret is assumed to hold there): two slashes, then a
greedy \s* run — which may span line terminators — then the token.  Whatever
follows the token always satisfies the regex's optional suffix group and its
closing multiline dollar, so the suffix only feeds the capture. -/
def directiveMatchAt (l : List Char) : Option (Option String) :=
  if ('/' :: '/' :: []).isPrefixOf l then
    let afterWs := (l.drop 2).dropWhile jsRegexSpace
    if directiveTokenChars.isPrefixOf afterWs then
      some (directiveCaptureOf (afterWs.drop directiveTokenChars.length))
    else none
  else none

/-- Scan the comment text left to right for the first position at which the
multiline caret holds (the start of the text, or right after a line
terminator) and the regex body matches, exactly as `String.prototype.match`
finds the leftmost match.  The flag records whether the caret holds at the
current position. -/
def scanDirective : Bool → List Char → Option (Option String)
  | _, [] => none
  | atAnchor, c :: rest =>
    match (if atAnchor then directiveMatchAt (c :: rest) else none) with
    | some cap => some cap
    | none => scanDirective (jsLineTerminator c) rest

/-- Result of matching a whole comment text against the directive regex of
part_003 line 346 with its multiline flag. -/
def directiveMatch (text : String) : Option (Option String) :=
  scanDirective true text.toList

/-- Whether a comment text registers a suppression directive. -/
def commentMatchesDirective (text : String) : Bool :=
  (directiveMatch text).isSome

/-- Modelled from the spec: the directive grammar as the spec (and claim C3)
states it — a single-line comment beginning, after the leading two slashes
and optional whitespace, with the directive token, optionally followed by a
colon and a free-text note; block comments never qualify.  This definition
follows the SPEC wording and is compared against `commentMatchesDirective`,
which embeds the code's regex. -/
def specDirectiveGrammar (text : String) : Bool :=
  match text.toList with
  | '/' :: '/' :: rest =>
    if rest.contains '\n' then false
    else
      let afterWs := rest.dropWhile jsWhitespace
      directiveTokenChars.isPrefixOf afterWs &&
        (match afterWs.drop directiveTokenChars.length with
         | [] => true
         | ':' :: _ => true
         | _ => false)
  | _ => false

/-- ASCII word characters, as used by the word-boundary assertion of the
JavaScript regex that looks for the deprecated token in a comment. -/
def isWordChar (c : Char) : Bool := c.isAlphanum || c == '_'

/-- Does the token "@deprecated" occur in the character list followed by a
word boundary (end of text or a non-word character)?  This embeds the test
of the regex used by part_003 lines 582 and 604. -/
def hasTokenFrom : List Char → Bool
  | [] => false
  | c :: rest =>
    ("@deprecated".toList.isPrefixOf (c :: rest) &&
      (match (c :: rest).drop "@deprecated".toList.length with
       | [] => true
       | d :: _ => !isWordChar d)) || hasTokenFrom rest

/-- Whether a comment text contains the deprecated token with a trailing
word boundary. -/
def containsDeprecatedToken (s : String) : Bool :=
  hasTokenFrom s.toList

/-- Embedding of `hasDeprecatedLeadingJsDoc` (part_003 lines 573-590): some
leading comment is a block JSDoc comment (text starts with slash-star-star)
containing the deprecated token. -/
def hasDeprecatedLeadingJsDoc (m : NodeMeta) : Bool :=
  m.leading.any (fun c =>
    "/**".toList.isPrefixOf c.text.toList && containsDeprecatedToken c.text)

/-- Embedding of `hasDeprecatedAdjacentComment` (part_003 lines 593-622):
some leading or trailing comment, of either form, contains the deprecated
token. -/
def hasDeprecatedAdjacentComment (m : NodeMeta) : Bool :=
  m.leading.any (fun c => containsDeprecatedToken c.text) ||
    m.trailing.any (fun c => containsDeprecatedToken c.text)

/-- The syntax-tree fragment the analyzer inspects.  Node kinds mirror the
`ts.isXxx` dispatch of the visitor; name identifiers of declarations are kept
as resolved symbols on the declaring node (the visitor skips declaration-name
identifiers, part_003 lines 698-724, so they never act as usages).  Child
lists are encoded with the `seqNil` / `seqCons` glue constructors, and an
absent optional child (such as a variable initializer) is `seqNil`. -/
inductive Node where
  | ident (m : NodeMeta) (sym : Option Symbol)
  | propAccess (m : NodeMeta) (expr : Node) (sym : Option Symbol)
  | callExpr (m : NodeMeta) (callee : Node) (args : Node)
  | newExpr (m : NodeMeta) (callee : Node) (args : Node)
  | functionDecl (m : NodeMeta) (nameSym : Option Symbol) (body : Node)
  | functionExpr (m : NodeMeta) (body : Node)
  | arrowFunction (m : NodeMeta) (body : Node)
  | methodDecl (m : NodeMeta) (nameSym : Option Symbol) (body : Node)
  | constructorDecl (m : NodeMeta) (body : Node)
  | classDecl (m : NodeMeta) (nameSym : Option Symbol) (members : Node)
  | variableDecl (m : NodeMeta) (nameSym : Option Symbol) (ini : Node)
  | exportDecl (m : NodeMeta) (specs : Node)
  | exportSpec (m : NodeMeta) (localSym : Option Symbol)
  | importSpec (m : NodeMeta) (localSym : Option Symbol)
  | typeAliasDecl (m : NodeMeta) (nameSym : Option Symbol) (body : Node)
  | exprStmt (m : NodeMeta) (child : Node)
  | seqNil
  | seqCons (head tail : Node)

/-- Metadata of a node; the glue constructors carry no source position. -/
def nodeMetaOf : Node → NodeMeta
  | .ident m _ => m
  | .propAccess m _ _ => m
  | .callExpr m _ _ => m
  | .newExpr m _ _ => m
  | .functionDecl m _ _ => m
  | .functionExpr m _ => m
  | .arrowFunction m _ => m
  | .methodDecl m _ _ => m
  | .constructorDecl m _ => m
  | .classDecl m _ _ => m
  | .variableDecl m _ _ => m
  | .exportDecl m _ => m
  | .exportSpec m _ => m
  | .importSpec m _ => m
  | .typeAliasDecl m _ _ => m
  | .exprStmt m _ => m
  | .seqNil => {}
  | .seqCons _ _ => {}

/-- Embedding of `checker.getSymbolAtLocation` applied to an expression node,
as the visitor does for call and new callees: identifiers and property
accesses carry their resolved symbol, other expression forms resolve to
nothing. -/
def symbolAt : Node → Option Symbol
  | .ident _ s => s
  | .propAccess _ _ s => s
  | _ => none

/-- The `aliasedSymbol || importedSymbol` step of the import/export specifier
handling (part_003 lines 762-763 and 783-784). -/
def aliasOrSelf : Option Symbol → Option Symbol
  | none => none
  | some s => some ((Symbol.aliasTarget s).getD s)

/-- One diagnostic record (`PrettierError` of types.ts): file, optional
1-based line and column, and the message text. -/
structure PrettierError where
  file : String
  line : Option Nat := none
  column : Option Nat := none
  message : String
deriving DecidableEq, Repr

/-- The mutable traversal state of `checkDeprecatedUsage`: the accumulated
warnings, the location de-duplication set, the per-file suppression map
(filename to the set of protected 1-based lines, both in insertion order),
the consumed-suppressions set of file:line keys, the per-file set of
processed comment positions, and the messages emitted through the logger. -/
structure ScanState where
  warnings : List PrettierError := []
  checkedLocations : List String := []
  suppressedLines : List (String × List Nat) := []
  usedSuppressions : List String := []
  processedComments : List Nat := []
  logs : List String := []
deriving DecidableEq, Repr

/-- Add a string to a list acting as an insertion-ordered set. -/
def insertStr (l : List String) (k : String) : List String :=
  if l.contains k then l else l ++ [k]

/-- Add a number to a list acting as an insertion-ordered set. -/
def insertNat (l : List Nat) (k : Nat) : List Nat :=
  if l.contains k then l else l ++ [k]

/-- Register a protected line for a file in the suppression map, preserving
the insertion order of both the map and the per-file line set. -/
def addSuppressedLine (m : List (String × List Nat)) (file : String) (line1 : Nat) :
    List (String × List Nat) :=
  match m with
  | [] => [(file, [line1])]
  | e :: rest =>
    if e.1 == file then (e.1, insertNat e.2 line1) :: rest
    else e :: addSuppressedLine rest file line1

/-- Whether a 1-based line of a file is protected by a registered directive
(`suppressedLines.get(fileName)?.has(actualLine) || false`). -/
def lineSuppressed (m : List (String × List Nat)) (file : String) (line1 : Nat) : Bool :=
  match m.find? (fun e => e.1 == file) with
  | some e => e.2.contains line1
  | none => false

/-- The "filename:line" key format of the used-suppressions set. -/
def suppressionKey (file : String) (line1 : Nat) : String :=
  file ++ ":" ++ toString line1

/-- The "filename:line:displayName" key format of the checked-locations set
(part_003 line 392). -/
def locationKey (file : String) (line1 : Nat) (displayName : String) : String :=
  file ++ ":" ++ toString line1 ++ ":" ++ displayName

/-- The PMAX001 message: the quoted display name, "is deprecated", and the
reason suffix exactly when the suffix argument is a non-empty string (a
falsy suffix — absent or empty — adds nothing). -/
def pmax001Message (displayName : String) (suffix : Option String) : String :=
  "PMAX001: " ++ squote ++ displayName ++ squote ++ " is deprecated" ++
    (match suffix with
     | some s => if s == "" then "" else ": " ++ s
     | none => "")

/-- The fixed PMAX002 message for an unused suppression directive. -/
def pmax002Message : String :=
  "PMAX002: Unnecessary @prettier-max-ignore-deprecated directive - no deprecated usage found on the next line"

/-- The diagnostic appended for an unused directive protecting 1-based line
`line1`: it points back at the directive comment line (`line1 - 1`),
column 1. -/
def pmax002Diag (file : String) (line1 : Nat) : PrettierError :=
  { file := file, line := some (line1 - 1), column := some 1, message := pmax002Message }

/-- Embedding of `maybeAddWarning` (part_003 lines 399-434), with the
enclosing `handleSymbolUsage`'s display name, line, and column passed
explicitly.  When the usage line is protected, the directive is marked
consumed and an informational log is emitted instead of a diagnostic;
otherwise a PMAX001 diagnostic is appended unless an identical one (same
file, line, and message) is already present. -/
def maybeAddWarning (file displayName : String) (line1 col1 : Nat)
    (suffix : Option String) (st : ScanState) : ScanState :=
  if lineSuppressed st.suppressedLines file line1 then
    { st with
      usedSuppressions := insertStr st.usedSuppressions (suppressionKey file line1),
      logs := st.logs ++
        ["Suppressed deprecated warning for " ++ squote ++ displayName ++ squote ++
          " at " ++ file ++ ":" ++ toString line1] }
  else
    let message := pmax001Message displayName suffix
    if st.warnings.any (fun w =>
        w.file == file && w.line == some line1 && w.message == message) then st
    else
      { st with
        warnings := st.warnings ++
          [{ file := file, line := some line1, column := some col1, message := message }] }

/-- Record a location key in the checked-locations set
(`checkedLocations.add(locationKey)` of part_003 line 397). -/
def markChecked (st : ScanState) (key : String) : ScanState :=
  { st with checkedLocations := st.checkedLocations ++ [key] }

/-- Embedding of `handleSymbolUsage` (part_003 lines 373-452) for a resolved
symbol: compute the display name and location, de-duplicate on the
file:line:displayName key, then warn through the JSDoc-message path or,
failing that, the legacy modifier-flag path. -/
def handleSymbolUsage (file : String) (symbol : Symbol) (m : NodeMeta)
    (st : ScanState) : ScanState :=
  let displayName := symbol.name
  let line1 := m.line0 + 1
  let key := locationKey file line1 displayName
  if st.checkedLocations.contains key then st
  else
    let st := markChecked st key
    let dm := getDeprecationMessage symbol
    let st := if dm.isSome then maybeAddWarning file displayName line1 (m.col0 + 1) dm st else st
    if symbol.hasValueDecl && symbol.legacyDeprecated && !dm.isSome then
      maybeAddWarning file displayName line1 (m.col0 + 1) none st
    else st

/-- `handleSymbolUsage` guarded on an unresolved symbol: a node whose symbol
lookup fails is not a usage and leaves the state untouched. -/
def handleSymbolUsageOpt (file : String) (s? : Option Symbol) (m : NodeMeta)
    (st : ScanState) : ScanState :=
  match s? with
  | none => st
  | some s => handleSymbolUsage file s m st

/-- The contextual facts the source reads off `node.parent`: whether the node
is the callee expression of an enclosing call/new expression, the name symbol
of an enclosing variable declaration (for arrow functions and function
expressions), and the name symbol of the enclosing class declaration (for
constructors). -/
structure VisitCtx where
  isCalleeOfCallNew : Bool := false
  varSym : Option Symbol := none
  classSym : Option Symbol := none

/-- The function-like skip test of part_003 lines 656-659: the enclosing
declaration's symbol was resolved and carries a deprecation message. -/
def skipFromSym : Option Symbol → Bool
  | some s => (getDeprecationMessage s).isSome
  | none => false

/-- The symbol the function-like skip logic resolves for a node (part_003
lines 633-654): the function or method name, the owning class name for a
constructor, the bound variable name for an arrow function or function
expression, and nothing otherwise. -/
def enclosingFuncSymbol (ctx : VisitCtx) : Node → Option Symbol
  | .functionDecl _ nameSym _ => nameSym
  | .methodDecl _ nameSym _ => nameSym
  | .constructorDecl _ _ => ctx.classSym
  | .functionExpr _ _ => ctx.varSym
  | .arrowFunction _ _ => ctx.varSym
  | _ => none

/-- Whether the node is one of the five function-like kinds the skip logic
applies to. -/
def isFunctionLike : Node → Bool
  | .functionDecl _ _ _ => true
  | .functionExpr _ _ => true
  | .arrowFunction _ _ => true
  | .methodDecl _ _ _ => true
  | .constructorDecl _ _ => true
  | _ => false

/-- Embedding of the `visit` traversal (part_003 lines 372-816).  Each case
first applies the skip rules of the corresponding node kind, then reports
the usage the node classifies to, then recurses into the children exactly as
`ts.forEachChild` would (declaration-name identifiers are not traversed,
matching the declaration-name skip in the identifier case of the source). -/
def visit (file : String) (ctx : VisitCtx) : Node → ScanState → ScanState
  | .ident m s?, st => handleSymbolUsageOpt file s? m st
  | .propAccess m e s?, st =>
    let st1 := if ctx.isCalleeOfCallNew then st else handleSymbolUsageOpt file s? m st
    visit file {} e st1
  | .callExpr _ callee args, st =>
    let st1 := handleSymbolUsageOpt file (symbolAt callee) (nodeMetaOf callee) st
    visit file {} args (visit file { isCalleeOfCallNew := true } callee st1)
  | .newExpr _ callee args, st =>
    let st1 := handleSymbolUsageOpt file (symbolAt callee) (nodeMetaOf callee) st
    visit file {} args (visit file { isCalleeOfCallNew := true } callee st1)
  | .functionDecl _ nameSym body, st =>
    if skipFromSym nameSym then st else visit file {} body st
  | .functionExpr _ body, st =>
    if skipFromSym ctx.varSym then st else visit file {} body st
  | .arrowFunction _ body, st =>
    if skipFromSym ctx.varSym then st else visit file {} body st
  | .methodDecl _ nameSym body, st =>
    if skipFromSym nameSym then st else visit file {} body st
  | .constructorDecl _ body, st =>
    if skipFromSym ctx.classSym then st else visit file {} body st
  | .classDecl _ nameSym members, st => visit file { classSym := nameSym } members st
  | .variableDecl _ nameSym ini, st => visit file { varSym := nameSym } ini st
  | .exportDecl m specs, st =>
    if hasDeprecatedLeadingJsDoc m then st else visit file {} specs st
  | .exportSpec m localSym, st =>
    if hasDeprecatedAdjacentComment m then st
    else handleSymbolUsageOpt file (aliasOrSelf localSym) m st
  | .importSpec m localSym, st => handleSymbolUsageOpt file (aliasOrSelf localSym) m st
  | .typeAliasDecl m nameSym body, st =>
    if skipFromSym nameSym then st
    else if hasDeprecatedLeadingJsDoc m then st
    else visit file {} body st
  | .exprStmt _ c, st => visit file {} c st
  | .seqNil, st => st
  | .seqCons h t, st => visit file ctx t (visit file ctx h st)

/-- Process one leading comment range of a node in the suppression scan
(part_003 lines 336-365): skip already-processed positions, test the
directive regex, register `commentLine + 2` (the 1-based line after the
comment) as protected, and emit the debug log with the note text when the
capture group is truthy. -/
def processComment (file : String) (c : CommentRange) (st : ScanState) : ScanState :=
  if st.processedComments.contains c.pos then st
  else
    let st := { st with processedComments := st.processedComments ++ [c.pos] }
    match directiveMatch c.text with
    | none => st
    | some cap =>
      let nextLine := c.line0 + 2
      let note := match cap with
        | some s => if s == "" then "" else ": " ++ s.trim
        | none => ""
      { st with
        suppressedLines := addSuppressedLine st.suppressedLines file nextLine,
        logs := st.logs ++
          ["Found suppression directive at " ++ file ++ ":" ++ toString (c.line0 + 1) ++ note] }

/-- Process all leading comments attached to one node. -/
def processLeading (file : String) (m : NodeMeta) (st : ScanState) : ScanState :=
  m.leading.foldl (fun s c => processComment file c s) st

/-- Embedding of the `processNode` suppression scan (part_003 lines 329-369):
handle the node's leading comment ranges, then recurse into every child. -/
def scanNode (file : String) : Node → ScanState → ScanState
  | .ident m _, st => processLeading file m st
  | .propAccess m e _, st => scanNode file e (processLeading file m st)
  | .callExpr m callee args, st =>
    scanNode file args (scanNode file callee (processLeading file m st))
  | .newExpr m callee args, st =>
    scanNode file args (scanNode file callee (processLeading file m st))
  | .functionDecl m _ body, st => scanNode file body (processLeading file m st)
  | .functionExpr m body, st => scanNode file body (processLeading file m st)
  | .arrowFunction m body, st => scanNode file body (processLeading file m st)
  | .methodDecl m _ body, st => scanNode file body (processLeading file m st)
  | .constructorDecl m body, st => scanNode file body (processLeading file m st)
  | .classDecl m _ members, st => scanNode file members (processLeading file m st)
  | .variableDecl m _ ini, st => scanNode file ini (processLeading file m st)
  | .exportDecl m specs, st => scanNode file specs (processLeading file m st)
  | .exportSpec m _, st => processLeading file m st
  | .importSpec m _, st => processLeading file m st
  | .typeAliasDecl m _ body, st => scanNode file body (processLeading file m st)
  | .exprStmt m c, st => scanNode file c (processLeading file m st)
  | .seqNil, st => st
  | .seqCons h t, st => scanNode file t (scanNode file h st)

/-- One parsed source file of the program model: file name, the
declaration-file flag, and the top-level statements. -/
structure SourceFile where
  fileName : String
  isDeclarationFile : Bool := false
  roots : List Node := []

/-- The compiled program model handed to the analyzer. -/
structure Program where
  files : List SourceFile := []

/-- Does a file name contain the node_modules segment
(`fileName.includes('node_modules')`)? -/
def includesNodeModules : List Char → Bool
  | [] => false
  | c :: rest =>
    "node_modules".toList.isPrefixOf (c :: rest) || includesNodeModules rest

/-- `program.getSourceFile(fileName)`. -/
def getSourceFile (prog : Program) (file : String) : Option SourceFile :=
  prog.files.find? (fun sf => sf.fileName == file)

/-- Process one source file: reset the per-file processed-comments set, run
the suppression scan over every top-level node, then run the usage visitor
over every top-level node (the call `visit(sourceFile)` of the source falls
through every node-kind test and recurses into the top-level statements). -/
def scanFileState (f : SourceFile) (st : ScanState) : ScanState :=
  let st := { st with processedComments := [] }
  let st := f.roots.foldl (fun s n => scanNode f.fileName n s) st
  f.roots.foldl (fun s n => visit f.fileName {} n s) st

/-- The PMAX002 diagnostics for the unconsumed protected lines of one file,
in registration order (part_003 lines 822-838). -/
def unusedDiagsForLines (prog : Program) (used : List String) (file : String) :
    List Nat → List PrettierError
  | [] => []
  | l :: rest =>
    (if used.contains (suppressionKey file l) then []
     else if (getSourceFile prog file).isSome then [pmax002Diag file l]
     else []) ++ unusedDiagsForLines prog used file rest

/-- The PMAX002 diagnostics of the whole suppression map, in insertion
order. -/
def unusedDiagsFor (prog : Program) (used : List String) :
    List (String × List Nat) → List PrettierError
  | [] => []
  | e :: rest => unusedDiagsForLines prog used e.1 e.2 ++ unusedDiagsFor prog used rest

/-- Embedding of `checkDeprecatedUsage` (part_003 lines 287-841) up to its
final state: scan and visit every source file that is neither under
node_modules nor a declaration file, then append the unused-suppression
diagnostics. -/
def checkDeprecatedUsageState (prog : Program) : ScanState :=
  let st := prog.files.foldl
    (fun st f =>
      if includesNodeModules f.fileName.toList || f.isDeclarationFile then st
      else scanFileState f st)
    {}
  { st with warnings := st.warnings ++ unusedDiagsFor prog st.usedSuppressions st.suppressedLines }

/-- The diagnostic list `checkDeprecatedUsage` returns. -/
def checkDeprecatedUsage (prog : Program) : List PrettierError :=
  (checkDeprecatedUsageState prog).warnings

/-- The result record the checker functions return (`FormatResult` of
types.ts), with the wall-clock duration field abstracted away. -/
structure FormatResult where
  success : Bool
  errors : List PrettierError := []
  formattedFiles : List String := []
deriving DecidableEq, Repr

/-- Embedding of `runTypeScriptCheck` (part_003 lines 846-1033) restricted to
the deprecation-analysis path.  The dynamic `loadTypeScript` import is the
`tsEnv` argument: `none` models the module failing to load, in which case the
source returns a successful result with no errors and performs no logger
call at all (lines 856-865).  When the module loads, the tsconfig discovery
and compiler-diagnostic parsing concern the external program model and are
collapsed into the already-compiled `Program`; the function then runs the
deprecation check exactly when `detectDeprecated` is set and succeeds when
the error list is empty.  The second component collects every message the
run reports through the logger. -/
def runTypeScriptCheck (tsEnv : Option Program) (detectDeprecated : Bool) :
    FormatResult × List String :=
  match tsEnv with
  | none => ({ success := true, errors := [], formattedFiles := [] }, [])
  | some prog =>
    let st := checkDeprecatedUsageState prog
    let errs := if detectDeprecated then st.warnings else []
    ({ success := errs.isEmpty, errors := errs, formattedFiles := [] }, st.logs)

/-! Concrete symbols, states, and programs the claim theorems below are
evaluated on. -/

/-- A deprecated JSDoc tag with the given text parts. -/
def depTag (parts : List String) : JSDocTag := ⟨"deprecated", some parts⟩

/-- A deprecated JSDoc tag whose text is undefined. -/
def depTagNoText : JSDocTag := ⟨"deprecated", none⟩

/-- A symbol that is obsolete only through the legacy modifier flag: no
deprecated documentation tag, flag set on its value declaration. -/
def symA1 : Symbol := .mk "A" (some []) true true none

/-- A symbol deprecated through a documentation tag with text. -/
def symB1 : Symbol := .mk "B" (some [depTag ["use C"]]) false false none

/-- A function A, obsolete per the spec resolver through the legacy flag
alone, whose body calls the tag-deprecated function B. -/
def progC1 : Program :=
  { files := [{ fileName := "c1.ts",
                roots := [Node.functionDecl { line0 := 0 } (some symA1)
                  (Node.seqCons
                    (Node.callExpr { line0 := 1 }
                      (Node.ident { line0 := 1, col0 := 2 } (some symB1)) Node.seqNil)
                    Node.seqNil)] }] }

/-- A tag-deprecated symbol used for suppression scenarios. -/
def symDep2 : Symbol := .mk "dep" (some [depTag ["gone"]]) false false none

/-- A symbol that is not obsolete at all. -/
def symOk2 : Symbol := .mk "fine" (some []) false false none

/-- A directive on line 1 protecting line 2, where a call to the deprecated
symbol sits. -/
def progC2a : Program :=
  { files := [{ fileName := "c2a.ts",
                roots := [Node.exprStmt
                  { line0 := 1,
                    leading := [{ pos := 0, line0 := 0,
                                  text := "// @prettier-max-ignore-deprecated" }] }
                  (Node.callExpr { line0 := 1 }
                    (Node.ident { line0 := 1, col0 := 0 } (some symDep2)) Node.seqNil)] }] }

/-- A directive on line 1 protecting line 2, where only a call to a
non-obsolete symbol sits. -/
def progC2b : Program :=
  { files := [{ fileName := "c2b.ts",
                roots := [Node.exprStmt
                  { line0 := 1,
                    leading := [{ pos := 0, line0 := 0,
                                  text := "// @prettier-max-ignore-deprecated" }] }
                  (Node.callExpr { line0 := 1 }
                    (Node.ident { line0 := 1, col0 := 0 } (some symOk2)) Node.seqNil)] }] }

/-- A block comment that contains a full inner line of directive form; the
multiline regex of the source matches it even though it is not a single-line
comment. -/
def blockDirectiveText : String := "/*\n// @prettier-max-ignore-deprecated\n*/"

/-- A single-line comment where the token is directly followed by further
word characters instead of a colon note or the end of the comment. -/
def noColonDirectiveText : String := "// @prettier-max-ignore-deprecatedXYZ"

/-- A file carrying the two comments above as leading trivia. -/
def progC3 : Program :=
  { files := [{ fileName := "c3.ts",
                roots := [Node.exprStmt
                  { line0 := 10,
                    leading := [{ pos := 0, line0 := 1, text := blockDirectiveText },
                                { pos := 50, line0 := 9, text := noColonDirectiveText }] }
                  Node.seqNil] }] }

/-- A directive comment on 1-based line 2 that never gets consumed. -/
def progC4 : Program :=
  { files := [{ fileName := "c4.ts",
                roots := [Node.exprStmt
                  { line0 := 2,
                    leading := [{ pos := 5, line0 := 1,
                                  text := "// @prettier-max-ignore-deprecated: demo" }] }
                  Node.seqNil] }] }

/-- A deprecated object symbol. -/
def symA5 : Symbol := .mk "a" (some [depTag ["old obj"]]) false false none

/-- A deprecated property symbol. -/
def symB5 : Symbol := .mk "b" (some [depTag ["old prop"]]) false false none

/-- The expression statement `a.b`: the property access and its object
identifier start at the same source position but resolve to symbols with
different display names. -/
def progC5 : Program :=
  { files := [{ fileName := "c5.ts",
                roots := [Node.exprStmt { line0 := 0 }
                  (Node.propAccess { line0 := 0, col0 := 0 }
                    (Node.ident { line0 := 0, col0 := 0 } (some symA5)) (some symB5))] }] }

/-- A symbol tagged deprecated with the reason text "Use Z instead". -/
def symF6 : Symbol := .mk "f" (some [depTag ["Use Z instead"]]) false false none

/-- A symbol whose deprecated tag has no text, with the legacy flag set on
its value declaration (as the TypeScript effective modifier flags do for a
JSDoc-deprecated declaration). -/
def symG6 : Symbol := .mk "g" (some [depTagNoText]) true true none

/-- A usage of the symbol with a reason text. -/
def progC6a : Program :=
  { files := [{ fileName := "c6a.ts",
                roots := [Node.exprStmt { line0 := 0 }
                  (Node.ident { line0 := 0, col0 := 0 } (some symF6))] }] }

/-- A usage of the symbol whose tag carries no text. -/
def progC6b : Program :=
  { files := [{ fileName := "c6b.ts",
                roots := [Node.exprStmt { line0 := 0 }
                  (Node.ident { line0 := 0, col0 := 0 } (some symG6))] }] }

/-- A symbol whose documentation-tag fetch throws, with the legacy flag
set. -/
def symThrow7 : Symbol := .mk "h" none true true none

/-- A node whose symbol lookup failed, followed by a usage of the symbol
with the throwing tag fetch. -/
def progC7 : Program :=
  { files := [{ fileName := "c7.ts",
                roots := [Node.exprStmt { line0 := 0 } (Node.ident { line0 := 0 } none),
                          Node.exprStmt { line0 := 1 }
                            (Node.ident { line0 := 1, col0 := 0 } (some symThrow7))] }] }

/-- Two distinct deprecated symbols used on one protected line. -/
def symX9 : Symbol := .mk "x" (some [depTag ["no x"]]) false false none

/-- Second deprecated symbol for the two-usages-on-one-line scenario. -/
def symY9 : Symbol := .mk "y" (some [depTag ["no y"]]) false false none

/-- A directive protecting line 2, which carries two deprecated usages with
different display names. -/
def progC9 : Program :=
  { files := [{ fileName := "c9.ts",
                roots := [Node.exprStmt
                  { line0 := 1,
                    leading := [{ pos := 0, line0 := 0,
                                  text := "// @prettier-max-ignore-deprecated" }] }
                  (Node.propAccess { line0 := 1, col0 := 0 }
                    (Node.ident { line0 := 1, col0 := 0 } (some symY9)) (some symX9))] }] }

/-- The deprecated original symbol behind an export alias. -/
def symOrig10 : Symbol := .mk "fOrig" (some [depTag ["moved"]]) false false none

/-- The local export-specifier symbol whose one-hop alias target is the
deprecated original. -/
def symLocal10 : Symbol := .mk "f" (some []) false false (some symOrig10)

/-- An export declaration without deprecated documentation of its own whose
specifier carries a trailing line comment containing the deprecated
token. -/
def progC10a : Program :=
  { files := [{ fileName := "c10.ts",
                roots := [Node.exportDecl { line0 := 0 }
                  (Node.seqCons
                    (Node.exportSpec
                      { line0 := 0, col0 := 9,
                        trailing := [{ pos := 20, line0 := 0,
                                       text := "// @deprecated old export" }] }
                      (some symLocal10))
                    Node.seqNil)] }] }

/-- The same export without the adjacent comment. -/
def progC10b : Program :=
  { files := [{ fileName := "c10.ts",
                roots := [Node.exportDecl { line0 := 0 }
                  (Node.seqCons
                    (Node.exportSpec { line0 := 0, col0 := 9 } (some symLocal10))
                    Node.seqNil)] }] }

/-- A tag-deprecated function symbol used by the skip witness. -/
def symW1 : Symbol := .mk "W" (some [depTag ["old"]]) false false none

/-- A deprecated function declaration containing a deprecated usage, used to
witness the skip theorem. -/
def nodeC1w : Node :=
  Node.functionDecl {} (some symW1) (Node.exprStmt {} (Node.ident {} (some symB1)))

/-- A state in which line 1 of file s.ts is protected by a directive. -/
def stC2w : ScanState := { suppressedLines := [("s.ts", [1])] }

/-- A state whose checked-locations set already holds the key of a usage of
symbol a on line 1 of d.ts. -/
def stDup : ScanState := { checkedLocations := ["d.ts:1:a"] }

/-- Attribution of an obsolete-usage diagnostic to the de-duplication key
(file, 1-based line, display name) it was produced under: the diagnostic
carries the key's file and line, and its message is the PMAX001 message of
the key's display name for some reason. -/
def attributedTo (k : String × Nat × String) (w : PrettierError) : Prop :=
  w.file = k.1 ∧ w.line = some k.2.1 ∧ ∃ r, w.message = pmax001Message k.2.2 r

/-- The de-duplication invariant of a traversal state: the warnings
collected so far are attributed, in order and one-to-one, to pairwise
distinct (file, line, displayName) keys, every one of which has been
recorded in the checked-locations set. -/
def dedupInv (st : ScanState) : Prop :=
  ∃ ks : List (String × Nat × String),
    List.Forall₂ attributedTo ks st.warnings ∧ ks.Nodup ∧
    ∀ k ∈ ks, st.checkedLocations.contains (locationKey k.1 k.2.1 k.2.2) = true

/-! Helper lemmas about the aggregator primitives. -/

theorem insertStr_contains (l : List String) (k : String) :
    (insertStr l k).contains k = true := by
  unfold insertStr
  by_cases h : l.contains k = true
  · rw [if_pos h]
    exact h
  · rw [if_neg h]
    simp

theorem insertNat_contains (l : List Nat) (k : Nat) :
    (insertNat l k).contains k = true := by
  unfold insertNat
  by_cases h : l.contains k = true
  · rw [if_pos h]
    exact h
  · rw [if_neg h]
    simp

theorem maybeAddWarning_suppLines (file dn : String) (l1 c1 : Nat)
    (suffix : Option String) (st : ScanState) :
    (maybeAddWarning file dn l1 c1 suffix st).suppressedLines = st.suppressedLines := by
  unfold maybeAddWarning
  by_cases h : lineSuppressed st.suppressedLines file l1
  · simp [h]
  · rw [if_neg h]
    dsimp only
    split <;> rfl

theorem maybeAddWarning_checked (file dn : String) (l1 c1 : Nat)
    (suffix : Option String) (st : ScanState) :
    (maybeAddWarning file dn l1 c1 suffix st).checkedLocations = st.checkedLocations := by
  unfold maybeAddWarning
  by_cases h : lineSuppressed st.suppressedLines file l1
  · simp [h]
  · rw [if_neg h]
    dsimp only
    split <;> rfl

theorem maybeAddWarning_suppressed_warnings (file dn : String) (l1 c1 : Nat)
    (suffix : Option String) (st : ScanState)
    (h : lineSuppressed st.suppressedLines file l1 = true) :
    (maybeAddWarning file dn l1 c1 suffix st).warnings = st.warnings := by
  unfold maybeAddWarning
  simp [h]

theorem maybeAddWarning_suppressed_used (file dn : String) (l1 c1 : Nat)
    (suffix : Option String) (st : ScanState)
    (h : lineSuppressed st.suppressedLines file l1 = true) :
    (maybeAddWarning file dn l1 c1 suffix st).usedSuppressions =
      insertStr st.usedSuppressions (suppressionKey file l1) := by
  unfold maybeAddWarning
  simp [h]

theorem maybeAddWarning_used_contains (file dn : String) (l1 c1 : Nat)
    (suffix : Option String) (st : ScanState)
    (h : lineSuppressed st.suppressedLines file l1 = true) :
    (maybeAddWarning file dn l1 c1 suffix st).usedSuppressions.contains
      (suppressionKey file l1) = true := by
  rw [maybeAddWarning_suppressed_used _ _ _ _ _ _ h]
  exact insertStr_contains _ _

theorem maybeAddWarning_mem (file dn : String) (l1 c1 : Nat) (suffix : Option String)
    (st : ScanState) (w : PrettierError)
    (hw : w ∈ (maybeAddWarning file dn l1 c1 suffix st).warnings) :
    w ∈ st.warnings ∨
      (w = { file := file, line := some l1, column := some c1,
             message := pmax001Message dn suffix } ∧
        lineSuppressed st.suppressedLines file l1 = false) := by
  unfold maybeAddWarning at hw
  by_cases h : lineSuppressed st.suppressedLines file l1
  · simp [h] at hw
    exact .inl hw
  · simp only [h, if_false, Bool.false_eq_true] at hw
    by_cases h2 : st.warnings.any (fun w =>
        w.file == file && w.line == some l1 && w.message == pmax001Message dn suffix)
    · simp [h2] at hw
      exact .inl hw
    · simp [h2, List.mem_append] at hw
      rcases hw with hw | hw
      · exact .inl hw
      · exact .inr ⟨hw, by simp [h]⟩

theorem maybeAddWarning_len (file dn : String) (l1 c1 : Nat) (suffix : Option String)
    (st : ScanState) :
    (maybeAddWarning file dn l1 c1 suffix st).warnings.length ≤ st.warnings.length + 1 := by
  unfold maybeAddWarning
  by_cases h : lineSuppressed st.suppressedLines file l1
  · simp [h]
  · simp only [h, if_false, Bool.false_eq_true]
    split
    · omega
    · simp

theorem hsu_already_checked (file : String) (s : Symbol) (m : NodeMeta) (st : ScanState)
    (h : st.checkedLocations.contains (locationKey file (m.line0 + 1) s.name) = true) :
    handleSymbolUsage file s m st = st := by
  unfold handleSymbolUsage
  have h' : locationKey file (m.line0 + 1) s.name ∈ st.checkedLocations := by
    simpa using h
  simp [h']

theorem hsu_mem (file : String) (s : Symbol) (m : NodeMeta) (st : ScanState)
    (w : PrettierError) (hw : w ∈ (handleSymbolUsage file s m st).warnings) :
    w ∈ st.warnings ∨
      (w = { file := file, line := some (m.line0 + 1), column := some (m.col0 + 1),
             message := pmax001Message s.name (getDeprecationMessage s) } ∧
        lineSuppressed st.suppressedLines file (m.line0 + 1) = false) := by
  unfold handleSymbolUsage at hw
  by_cases hk : locationKey file (m.line0 + 1) s.name ∈ st.checkedLocations
  · simp [hk] at hw
    exact .inl hw
  · cases hdm : getDeprecationMessage s with
    | some v =>
      rw [hdm] at hw
      simp [hk] at hw
      rcases maybeAddWarning_mem file s.name (m.line0 + 1) (m.col0 + 1) (some v) _ w hw
        with h1 | ⟨h1, h2⟩
      · exact .inl h1
      · exact .inr ⟨h1, by simpa using h2⟩
    | none =>
      rw [hdm] at hw
      simp [hk] at hw
      by_cases hL : s.hasValueDecl = true ∧ s.legacyDeprecated = true
      · rw [if_pos hL] at hw
        rcases maybeAddWarning_mem file s.name (m.line0 + 1) (m.col0 + 1) none _ w hw
          with h1 | ⟨h1, h2⟩
        · exact .inl h1
        · exact .inr ⟨h1, by simpa using h2⟩
      · rw [if_neg hL] at hw
        exact .inl hw

theorem hsu_suppressed_warnings (file : String) (s : Symbol) (m : NodeMeta) (st : ScanState)
    (h : lineSuppressed st.suppressedLines file (m.line0 + 1) = true) :
    (handleSymbolUsage file s m st).warnings = st.warnings := by
  unfold handleSymbolUsage
  by_cases hk : locationKey file (m.line0 + 1) s.name ∈ st.checkedLocations
  · simp [hk]
  · cases hdm : getDeprecationMessage s with
    | some v =>
      simp only [hdm]
      simp [hk]
      exact maybeAddWarning_suppressed_warnings file s.name (m.line0 + 1) (m.col0 + 1)
        (some v) (markChecked st (locationKey file (m.line0 + 1) s.name)) h
    | none =>
      simp only [hdm]
      simp [hk]
      by_cases hL : s.hasValueDecl = true ∧ s.legacyDeprecated = true
      · rw [if_pos hL]
        exact maybeAddWarning_suppressed_warnings file s.name (m.line0 + 1) (m.col0 + 1)
          none (markChecked st (locationKey file (m.line0 + 1) s.name)) h
      · rw [if_neg hL]
        rfl

theorem hsu_suppressed_consumed (file : String) (s : Symbol) (m : NodeMeta) (st : ScanState)
    (h : lineSuppressed st.suppressedLines file (m.line0 + 1) = true)
    (hobs : codeObsolete s = true)
    (hk : locationKey file (m.line0 + 1) s.name ∉ st.checkedLocations) :
    (handleSymbolUsage file s m st).usedSuppressions.contains
      (suppressionKey file (m.line0 + 1)) = true := by
  unfold handleSymbolUsage
  cases hdm : getDeprecationMessage s with
  | some v =>
    simp only [hdm]
    simp [hk]
    simpa using maybeAddWarning_used_contains file s.name (m.line0 + 1) (m.col0 + 1)
      (some v) (markChecked st (locationKey file (m.line0 + 1) s.name)) h
  | none =>
    simp only [hdm]
    simp [hk]
    have hL : s.hasValueDecl = true ∧ s.legacyDeprecated = true := by
      unfold codeObsolete at hobs
      simp [hdm] at hobs
      exact hobs
    rw [if_pos hL]
    simpa using maybeAddWarning_used_contains file s.name (m.line0 + 1) (m.col0 + 1)
      none (markChecked st (locationKey file (m.line0 + 1) s.name)) h

theorem hsu_checked_after (file : String) (s : Symbol) (m : NodeMeta) (st : ScanState) :
    (handleSymbolUsage file s m st).checkedLocations.contains
      (locationKey file (m.line0 + 1) s.name) = true := by
  unfold handleSymbolUsage
  by_cases hk : locationKey file (m.line0 + 1) s.name ∈ st.checkedLocations
  · simp [hk]
  · cases hdm : getDeprecationMessage s with
    | some v =>
      simp only [hdm]
      simp [hk]
      rw [maybeAddWarning_checked]
      simp [markChecked]
    | none =>
      simp only [hdm]
      simp [hk]
      by_cases hL : s.hasValueDecl = true ∧ s.legacyDeprecated = true
      · rw [if_pos hL]
        rw [maybeAddWarning_checked]
        simp [markChecked]
      · rw [if_neg hL]
        simp [markChecked]

theorem hsu_len (file : String) (s : Symbol) (m : NodeMeta) (st : ScanState) :
    (handleSymbolUsage file s m st).warnings.length ≤ st.warnings.length + 1 := by
  unfold handleSymbolUsage
  by_cases hk : locationKey file (m.line0 + 1) s.name ∈ st.checkedLocations
  · simp [hk]
  · cases hdm : getDeprecationMessage s with
    | some v =>
      simp only [hdm]
      simp [hk]
      exact maybeAddWarning_len _ _ _ _ _ _
    | none =>
      simp only [hdm]
      simp [hk]
      by_cases hL : s.hasValueDecl = true ∧ s.legacyDeprecated = true
      · rw [if_pos hL]
        exact maybeAddWarning_len _ _ _ _ _ _
      · rw [if_neg hL]
        simp [markChecked]

theorem hsuOpt_mem (file : String) (s? : Option Symbol) (m : NodeMeta) (st : ScanState)
    (w : PrettierError) (hw : w ∈ (handleSymbolUsageOpt file s? m st).warnings) :
    w ∈ st.warnings ∨ ∃ n r, w.message = pmax001Message n r := by
  cases s? with
  | none => exact .inl hw
  | some s =>
    rcases hsu_mem file s m st w hw with h | ⟨hw2, _⟩
    · exact .inl h
    · exact .inr ⟨s.name, getDeprecationMessage s, by rw [hw2]⟩

theorem hsuOpt_suppressed_warnings (file : String) (s? : Option Symbol) (m : NodeMeta)
    (st : ScanState) (h : lineSuppressed st.suppressedLines file (m.line0 + 1) = true) :
    (handleSymbolUsageOpt file s? m st).warnings = st.warnings := by
  cases s? with
  | none => rfl
  | some s => exact hsu_suppressed_warnings file s m st h

/-! A generic fold invariant, used for the per-file and per-root folds. -/

theorem foldl_preserve {α : Type} (P : ScanState → Prop) (step : ScanState → α → ScanState)
    (hstep : ∀ st a, P st → P (step st a)) :
    ∀ (l : List α) (st : ScanState), P st → P (l.foldl step st)
  | [], _, h => h
  | a :: rest, st, h => foldl_preserve P step hstep rest (step st a) (hstep st a h)

/-! The suppression scan never touches the warnings list. -/

theorem processComment_warnings (file : String) (c : CommentRange) (st : ScanState) :
    (processComment file c st).warnings = st.warnings := by
  unfold processComment
  by_cases h : c.pos ∈ st.processedComments
  · simp [h]
  · rw [if_neg (by simpa using h)]
    dsimp only
    cases hd : directiveMatch c.text <;> simp

theorem processLeading_warnings (file : String) (m : NodeMeta) (st : ScanState) :
    (processLeading file m st).warnings = st.warnings := by
  unfold processLeading
  exact foldl_preserve (fun x => x.warnings = st.warnings)
    (fun s c => processComment file c s)
    (fun s c hs => by
      show (processComment file c s).warnings = st.warnings
      rw [processComment_warnings]
      exact hs)
    m.leading st rfl

theorem scanNode_warnings (file : String) (node : Node) :
    ∀ st : ScanState, (scanNode file node st).warnings = st.warnings := by
  induction node <;> intro st <;>
    simp [scanNode, processLeading_warnings, *]

/-! Every warning a visit adds carries a PMAX001-shaped message. -/

theorem visit_mem (file : String) (node : Node) :
    ∀ (ctx : VisitCtx) (st : ScanState) (w : PrettierError),
      w ∈ (visit file ctx node st).warnings →
      w ∈ st.warnings ∨ ∃ n r, w.message = pmax001Message n r := by
  induction node with
  | ident m s? =>
    intro ctx st w hw
    exact hsuOpt_mem _ _ _ _ _ hw
  | propAccess m e s? ih =>
    intro ctx st w hw
    simp only [visit] at hw
    rcases ih {} _ w hw with h1 | h1
    · cases hc : ctx.isCalleeOfCallNew
      · rw [hc] at h1
        simp only [Bool.false_eq_true, if_false] at h1
        exact hsuOpt_mem _ _ _ _ _ h1
      · rw [hc] at h1
        simp only [if_true] at h1
        exact .inl h1
    · exact .inr h1
  | callExpr m callee args ih1 ih2 =>
    intro ctx st w hw
    simp only [visit] at hw
    rcases ih2 {} _ w hw with h1 | h1
    · rcases ih1 _ _ w h1 with h2 | h2
      · exact hsuOpt_mem _ _ _ _ _ h2
      · exact .inr h2
    · exact .inr h1
  | newExpr m callee args ih1 ih2 =>
    intro ctx st w hw
    simp only [visit] at hw
    rcases ih2 {} _ w hw with h1 | h1
    · rcases ih1 _ _ w h1 with h2 | h2
      · exact hsuOpt_mem _ _ _ _ _ h2
      · exact .inr h2
    · exact .inr h1
  | functionDecl m nameSym body ih =>
    intro ctx st w hw
    simp only [visit] at hw
    by_cases hs : skipFromSym nameSym = true
    · rw [if_pos hs] at hw
      exact .inl hw
    · rw [if_neg hs] at hw
      exact ih _ _ w hw
  | functionExpr m body ih =>
    intro ctx st w hw
    simp only [visit] at hw
    by_cases hs : skipFromSym ctx.varSym = true
    · rw [if_pos hs] at hw
      exact .inl hw
    · rw [if_neg hs] at hw
      exact ih _ _ w hw
  | arrowFunction m body ih =>
    intro ctx st w hw
    simp only [visit] at hw
    by_cases hs : skipFromSym ctx.varSym = true
    · rw [if_pos hs] at hw
      exact .inl hw
    · rw [if_neg hs] at hw
      exact ih _ _ w hw
  | methodDecl m nameSym body ih =>
    intro ctx st w hw
    simp only [visit] at hw
    by_cases hs : skipFromSym nameSym = true
    · rw [if_pos hs] at hw
      exact .inl hw
    · rw [if_neg hs] at hw
      exact ih _ _ w hw
  | constructorDecl m body ih =>
    intro ctx st w hw
    simp only [visit] at hw
    by_cases hs : skipFromSym ctx.classSym = true
    · rw [if_pos hs] at hw
      exact .inl hw
    · rw [if_neg hs] at hw
      exact ih _ _ w hw
  | classDecl m nameSym members ih =>
    intro ctx st w hw
    simp only [visit] at hw
    exact ih _ _ w hw
  | variableDecl m nameSym ini ih =>
    intro ctx st w hw
    simp only [visit] at hw
    exact ih _ _ w hw
  | exportDecl m specs ih =>
    intro ctx st w hw
    simp only [visit] at hw
    by_cases hs : hasDeprecatedLeadingJsDoc m = true
    · rw [if_pos hs] at hw
      exact .inl hw
    · rw [if_neg hs] at hw
      exact ih _ _ w hw
  | exportSpec m localSym =>
    intro ctx st w hw
    simp only [visit] at hw
    by_cases hs : hasDeprecatedAdjacentComment m = true
    · rw [if_pos hs] at hw
      exact .inl hw
    · rw [if_neg hs] at hw
      exact hsuOpt_mem _ _ _ _ _ hw
  | importSpec m localSym =>
    intro ctx st w hw
    simp only [visit] at hw
    exact hsuOpt_mem _ _ _ _ _ hw
  | typeAliasDecl m nameSym body ih =>
    intro ctx st w hw
    simp only [visit] at hw
    by_cases hs : skipFromSym nameSym = true
    · rw [if_pos hs] at hw
      exact .inl hw
    · rw [if_neg hs] at hw
      by_cases hj : hasDeprecatedLeadingJsDoc m = true
      · rw [if_pos hj] at hw
        exact .inl hw
      · rw [if_neg hj] at hw
        exact ih _ _ w hw
  | exprStmt m c ih =>
    intro ctx st w hw
    simp only [visit] at hw
    exact ih _ _ w hw
  | seqNil =>
    intro ctx st w hw
    exact .inl hw
  | seqCons h t ih1 ih2 =>
    intro ctx st w hw
    simp only [visit] at hw
    rcases ih2 _ _ w hw with h1 | h1
    · rcases ih1 _ _ w h1 with h2 | h2
      · exact .inl h2
      · exact .inr h2
    · exact .inr h1

theorem scanFileState_mem (f : SourceFile) (st : ScanState) (w : PrettierError)
    (hw : w ∈ (scanFileState f st).warnings) :
    w ∈ st.warnings ∨ ∃ n r, w.message = pmax001Message n r := by
  unfold scanFileState at hw
  have hscan : ((f.roots.foldl (fun s n => scanNode f.fileName n s)
      { st with processedComments := [] }).warnings) = st.warnings := by
    exact foldl_preserve (fun x => x.warnings = st.warnings)
      (fun s n => scanNode f.fileName n s)
      (fun s n hs => by
        show (scanNode f.fileName n s).warnings = st.warnings
        rw [scanNode_warnings]
        exact hs)
      f.roots { st with processedComments := [] } rfl
  have main := foldl_preserve
    (fun x => ∀ v ∈ x.warnings, v ∈ st.warnings ∨ ∃ n r, v.message = pmax001Message n r)
    (fun s n => visit f.fileName {} n s)
    (fun s n hs v hv => by
      have hv2 : v ∈ (visit f.fileName {} n s).warnings := hv
      rcases visit_mem f.fileName n {} s v hv2 with h1 | h1
      · exact hs v h1
      · exact .inr h1)
    f.roots
    (f.roots.foldl (fun s n => scanNode f.fileName n s) { st with processedComments := [] })
    (fun v hv => .inl (hscan ▸ hv))
  exact main w hw

/-! The unused-suppression pass: message forms, presence, and absence. -/

theorem unusedDiagsForLines_msg (prog : Program) (used : List String) (file : String) :
    ∀ (ls : List Nat) (d : PrettierError), d ∈ unusedDiagsForLines prog used file ls →
      d.message = pmax002Message := by
  intro ls
  induction ls with
  | nil => simp [unusedDiagsForLines]
  | cons l rest ih =>
    intro d hd
    unfold unusedDiagsForLines at hd
    rcases List.mem_append.mp hd with h | h
    · split at h
      · simp at h
      · split at h
        · simp at h
          rw [h]
          rfl
        · simp at h
    · exact ih d h

theorem unusedDiagsFor_msg (prog : Program) (used : List String) :
    ∀ (entries : List (String × List Nat)) (d : PrettierError),
      d ∈ unusedDiagsFor prog used entries → d.message = pmax002Message := by
  intro entries
  induction entries with
  | nil => simp [unusedDiagsFor]
  | cons e rest ih =>
    intro d hd
    unfold unusedDiagsFor at hd
    rcases List.mem_append.mp hd with h | h
    · exact unusedDiagsForLines_msg prog used e.1 e.2 d h
    · exact ih d h

theorem unusedDiagsForLines_shape (prog : Program) (used : List String) (file : String) :
    ∀ (ls : List Nat) (d : PrettierError), d ∈ unusedDiagsForLines prog used file ls →
      ∃ l, l ∈ ls ∧ used.contains (suppressionKey file l) = false ∧
        (getSourceFile prog file).isSome = true ∧ d = pmax002Diag file l := by
  intro ls
  induction ls with
  | nil => simp [unusedDiagsForLines]
  | cons l rest ih =>
    intro d hd
    unfold unusedDiagsForLines at hd
    rcases List.mem_append.mp hd with h | h
    · split at h
      next hu => simp at h
      next hu =>
        split at h
        next hf =>
          simp at h
          exact ⟨l, by simp, by simpa using hu, hf, h⟩
        next hf => simp at h
    · rcases ih d h with ⟨l2, hl2, h2, h3, h4⟩
      exact ⟨l2, by simp [hl2], h2, h3, h4⟩

theorem unusedDiagsFor_shape (prog : Program) (used : List String) :
    ∀ (entries : List (String × List Nat)) (d : PrettierError),
      d ∈ unusedDiagsFor prog used entries →
      ∃ f l, (∃ e ∈ entries, e.1 = f ∧ l ∈ e.2) ∧
        used.contains (suppressionKey f l) = false ∧
        (getSourceFile prog f).isSome = true ∧ d = pmax002Diag f l := by
  intro entries
  induction entries with
  | nil => simp [unusedDiagsFor]
  | cons e rest ih =>
    intro d hd
    unfold unusedDiagsFor at hd
    rcases List.mem_append.mp hd with h | h
    · rcases unusedDiagsForLines_shape prog used e.1 e.2 d h with ⟨l, hl, h2, h3, h4⟩
      exact ⟨e.1, l, ⟨e, by simp, rfl, hl⟩, h2, h3, h4⟩
    · rcases ih d h with ⟨f, l, ⟨e2, he2, hf2, hl2⟩, h2, h3, h4⟩
      exact ⟨f, l, ⟨e2, by simp [he2], hf2, hl2⟩, h2, h3, h4⟩

theorem unusedDiagsForLines_intro (prog : Program) (used : List String) (file : String) :
    ∀ (ls : List Nat) (l : Nat), l ∈ ls →
      used.contains (suppressionKey file l) = false →
      (getSourceFile prog file).isSome = true →
      pmax002Diag file l ∈ unusedDiagsForLines prog used file ls := by
  intro ls
  induction ls with
  | nil => simp
  | cons l0 rest ih =>
    intro l hl hu hf
    unfold unusedDiagsForLines
    rcases List.mem_cons.mp hl with h | h
    · subst h
      rw [if_neg (by rw [hu]; simp), if_pos hf]
      simp
    · exact List.mem_append.mpr (.inr (ih l h hu hf))

theorem unusedDiagsFor_intro (prog : Program) (used : List String) :
    ∀ (entries : List (String × List Nat)) (f : String) (ls : List Nat) (l : Nat),
      (f, ls) ∈ entries → l ∈ ls →
      used.contains (suppressionKey f l) = false →
      (getSourceFile prog f).isSome = true →
      pmax002Diag f l ∈ unusedDiagsFor prog used entries := by
  intro entries
  induction entries with
  | nil => simp
  | cons e rest ih =>
    intro f ls l he hl hu hf
    unfold unusedDiagsFor
    rcases List.mem_cons.mp he with h | h
    · subst h
      exact List.mem_append.mpr (.inl (unusedDiagsForLines_intro prog used f ls l hl hu hf))
    · exact List.mem_append.mpr (.inr (ih f ls l h hl hu hf))

theorem unusedDiagsFor_absent (prog : Program) (used : List String)
    (entries : List (String × List Nat)) (f : String) (l : Nat) (hl : 2 ≤ l)
    (hmin : ∀ e ∈ entries, ∀ lp ∈ e.2, 2 ≤ lp)
    (hused : used.contains (suppressionKey f l) = true) :
    pmax002Diag f l ∉ unusedDiagsFor prog used entries := by
  intro hmem
  rcases unusedDiagsFor_shape prog used entries _ hmem with
    ⟨f2, l2, ⟨e, he, hf2, hl2⟩, h2, _, h4⟩
  have hfl : f = f2 ∧ l - 1 = l2 - 1 := by
    unfold pmax002Diag at h4
    simp only [PrettierError.mk.injEq, Option.some.injEq] at h4
    exact ⟨h4.1, h4.2.1⟩
  have hl2ge : 2 ≤ l2 := hmin e he l2 hl2
  have : l = l2 := by omega
  rw [hfl.1, this] at hused
  rw [hused] at h2
  exact Bool.true_eq_false.mp h2

/-! Directive registration lemmas. -/

theorem lineSuppressed_addSuppressedLine (file : String) (l1 : Nat) :
    ∀ m : List (String × List Nat),
      lineSuppressed (addSuppressedLine m file l1) file l1 = true := by
  intro m
  induction m with
  | nil => simp [addSuppressedLine, lineSuppressed, List.find?]
  | cons e rest ih =>
    unfold addSuppressedLine
    by_cases he : e.1 == file
    · rw [if_pos he]
      unfold lineSuppressed
      rw [List.find?]
      simp only [he]
      exact insertNat_contains e.2 l1
    · rw [if_neg he]
      unfold lineSuppressed
      rw [List.find?]
      simp only [Bool.not_eq_true] at he
      simp only [he]
      exact ih

/-! Characterization of the directive matcher (for claim C3). -/

theorem dropWhile_append_of_all (p : Char → Bool) :
    ∀ (ws x : List Char), ws.all p = true → (ws ++ x).dropWhile p = x.dropWhile p
  | [], x, _ => rfl
  | c :: ws, x, h => by
    simp only [List.all_cons, Bool.and_eq_true] at h
    simp only [List.cons_append, List.dropWhile_cons, h.1, if_true]
    exact dropWhile_append_of_all p ws x h.2

theorem dropWhile_on_token (p : Char → Bool) (hp : p '@' = false) (rest : List Char) :
    (directiveTokenChars ++ rest).dropWhile p = directiveTokenChars ++ rest := by
  have h1 : directiveTokenChars = '@' :: "prettier-max-ignore-deprecated".toList := rfl
  rw [h1]
  simp [List.dropWhile_cons, hp]

theorem takeWhile_all_self (p : Char → Bool) :
    ∀ l : List Char, (l.takeWhile p).all p = true := by
  intro l
  induction l with
  | nil => rfl
  | cons c t ih =>
    by_cases h : p c = true
    · simp [List.takeWhile_cons, h, ih]
    · simp [List.takeWhile_cons, h]

theorem directiveMatchAt_isSome_iff (l : List Char) :
    (directiveMatchAt l).isSome = true ↔
      ∃ ws rest, ws.all jsRegexSpace = true ∧
        l = '/' :: '/' :: (ws ++ (directiveTokenChars ++ rest)) := by
  unfold directiveMatchAt
  constructor
  · intro h
    by_cases h2 : ('/' :: '/' :: []).isPrefixOf l = true
    · rcases List.isPrefixOf_iff_prefix.mp h2 with ⟨t, ht⟩
      rw [if_pos h2] at h
      dsimp only at h
      by_cases hp : directiveTokenChars.isPrefixOf ((l.drop 2).dropWhile jsRegexSpace) = true
      · rcases List.isPrefixOf_iff_prefix.mp hp with ⟨u, hu⟩
        refine ⟨(l.drop 2).takeWhile jsRegexSpace, u,
          takeWhile_all_self jsRegexSpace (l.drop 2), ?_⟩
        have hdrop : l.drop 2 = t := by
          rw [← ht]
          rfl
        have hsplit := @List.takeWhile_append_dropWhile _ jsRegexSpace (l.drop 2)
        rw [hu, hsplit, hdrop]
        exact ht.symm
      · rw [if_neg hp] at h
        simp at h
    · rw [if_neg h2] at h
      simp at h
  · rintro ⟨ws, rest, hall, rfl⟩
    have h3 : (('/' :: '/' :: []).isPrefixOf
        ('/' :: '/' :: (ws ++ (directiveTokenChars ++ rest)))) = true :=
      List.isPrefixOf_iff_prefix.mpr ⟨ws ++ (directiveTokenChars ++ rest), rfl⟩
    rw [if_pos h3]
    dsimp only
    have hdrop2 : ('/' :: '/' :: (ws ++ (directiveTokenChars ++ rest))).drop 2
        = ws ++ (directiveTokenChars ++ rest) := rfl
    rw [hdrop2, dropWhile_append_of_all jsRegexSpace ws _ hall,
      dropWhile_on_token jsRegexSpace rfl]
    rw [if_pos (List.isPrefixOf_iff_prefix.mpr ⟨rest, rfl⟩)]
    rfl

theorem scanDirective_isSome_iff :
    ∀ (l : List Char) (a : Bool),
      (scanDirective a l).isSome = true ↔
        ∃ pre suf, l = pre ++ suf ∧ (directiveMatchAt suf).isSome = true ∧
          ((pre = [] ∧ a = true) ∨ ∃ p c, pre = p ++ [c] ∧ jsLineTerminator c = true) := by
  intro l
  induction l with
  | nil =>
    intro a
    constructor
    · intro h
      simp [scanDirective] at h
    · rintro ⟨pre, suf, hls, hsome, _⟩
      rcases List.append_eq_nil.mp hls.symm with ⟨_, hsuf⟩
      rw [hsuf] at hsome
      have : directiveMatchAt [] = none := rfl
      rw [this] at hsome
      simp at hsome
  | cons c rest ih =>
    intro a
    constructor
    · intro h
      unfold scanDirective at h
      cases ha : a with
      | true =>
        rw [ha] at h
        simp only [if_true] at h
        cases hm : directiveMatchAt (c :: rest) with
        | some cap =>
          exact ⟨[], c :: rest, rfl, by rw [hm]; rfl, .inl ⟨rfl, rfl⟩⟩
        | none =>
          rw [hm] at h
          simp only at h
          rcases (ih (jsLineTerminator c)).mp h with ⟨pre, suf, hls, hsome, hanch⟩
          rcases hanch with ⟨hpre, hterm⟩ | ⟨p, c2, hpre, hterm⟩
          · refine ⟨[c], suf, ?_, hsome, .inr ⟨[], c, rfl, hterm⟩⟩
            rw [hpre] at hls
            rw [hls]
            rfl
          · refine ⟨c :: pre, suf, by rw [hls]; rfl, hsome,
              .inr ⟨c :: p, c2, by rw [hpre]; rfl, hterm⟩⟩
      | false =>
        rw [ha] at h
        simp only [Bool.false_eq_true, if_false] at h
        rcases (ih (jsLineTerminator c)).mp h with ⟨pre, suf, hls, hsome, hanch⟩
        rcases hanch with ⟨hpre, hterm⟩ | ⟨p, c2, hpre, hterm⟩
        · refine ⟨[c], suf, ?_, hsome, .inr ⟨[], c, rfl, hterm⟩⟩
          rw [hpre] at hls
          rw [hls]
          rfl
        · refine ⟨c :: pre, suf, by rw [hls]; rfl, hsome,
            .inr ⟨c :: p, c2, by rw [hpre]; rfl, hterm⟩⟩
    · rintro ⟨pre, suf, hls, hsome, hanch⟩
      cases pre with
      | nil =>
        rcases hanch with ⟨_, ha⟩ | ⟨p, c2, hpre, _⟩
        · subst ha
          simp only [List.nil_append] at hls
          unfold scanDirective
          simp only [if_true]
          rw [hls]
          cases hm : directiveMatchAt suf with
          | none =>
            rw [hm] at hsome
            simp at hsome
          | some cap => rfl
        · simp at hpre
      | cons d pre2 =>
        have hd : c = d ∧ rest = pre2 ++ suf := by
          rw [List.cons_append] at hls
          exact ⟨(List.cons.injEq _ _ _ _ ▸ hls).1, (List.cons.injEq _ _ _ _ ▸ hls).2⟩
        have htail : (scanDirective (jsLineTerminator c) rest).isSome = true := by
          rcases hanch with ⟨hpre, _⟩ | ⟨p, c2, hpre, hterm⟩
          · simp at hpre
          · cases p with
            | nil =>
              simp only [List.nil_append, List.cons.injEq] at hpre
              refine (ih (jsLineTerminator c)).mpr ⟨pre2, suf, hd.2, hsome, .inl ⟨?_, ?_⟩⟩
              · exact hpre.2
              · rw [hd.1, hpre.1, hterm]
            | cons e p2 =>
              simp only [List.cons_append, List.cons.injEq] at hpre
              exact (ih (jsLineTerminator c)).mpr
                ⟨pre2, suf, hd.2, hsome, .inr ⟨p2, c2, hpre.2, hterm⟩⟩
        unfold scanDirective
        cases hm : (if a then directiveMatchAt (c :: rest) else none) with
        | some cap => rfl
        | none => exact htail

theorem commentMatchesDirective_iff (text : String) :
    commentMatchesDirective text = true ↔
      ∃ pre ws rest,
        text.toList = pre ++ ('/' :: '/' :: (ws ++ (directiveTokenChars ++ rest))) ∧
        ws.all jsRegexSpace = true ∧
        (pre = [] ∨ ∃ p c, pre = p ++ [c] ∧ jsLineTerminator c = true) := by
  unfold commentMatchesDirective directiveMatch
  rw [scanDirective_isSome_iff]
  constructor
  · rintro ⟨pre, suf, hls, hsome, hanch⟩
    rcases (directiveMatchAt_isSome_iff suf).mp hsome with ⟨ws, rest, hall, hsuf⟩
    refine ⟨pre, ws, rest, by rw [hls, hsuf], hall, ?_⟩
    rcases hanch with ⟨hpre, _⟩ | h2
    · exact .inl hpre
    · exact .inr h2
  · rintro ⟨pre, ws, rest, hls, hall, hanch⟩
    refine ⟨pre, '/' :: '/' :: (ws ++ (directiveTokenChars ++ rest)), hls,
      (directiveMatchAt_isSome_iff _).mpr ⟨ws, rest, hall, rfl⟩, ?_⟩
    rcases hanch with hpre | h2
    · exact .inl ⟨hpre, rfl⟩
    · exact .inr h2

/-! Every diagnostic the whole run returns is either PMAX001- or
PMAX002-shaped. -/

theorem checkDeprecatedUsage_forms (prog : Program) (w : PrettierError)
    (hw : w ∈ checkDeprecatedUsage prog) :
    (∃ n r, w.message = pmax001Message n r) ∨ w.message = pmax002Message := by
  unfold checkDeprecatedUsage checkDeprecatedUsageState at hw
  dsimp only at hw
  rcases List.mem_append.mp hw with h | h
  · have main := foldl_preserve
      (fun x => ∀ v ∈ x.warnings, ∃ n r, v.message = pmax001Message n r)
      (fun st f => if includesNodeModules f.fileName.toList || f.isDeclarationFile then st
        else scanFileState f st)
      (fun st f hs v hv => by
        have hv2 : v ∈ (if includesNodeModules f.fileName.toList || f.isDeclarationFile
            then st else scanFileState f st).warnings := hv
        split at hv2
        · exact hs v hv2
        · rcases scanFileState_mem f st v hv2 with h1 | h1
          · exact hs v h1
          · exact h1)
      prog.files {} (by simp)
    exact .inl (main w h)
  · exact .inr (unusedDiagsFor_msg _ _ _ w h)

theorem processComment_registers (file : String) (c : CommentRange) (st : ScanState)
    (hp : ¬ st.processedComments.contains c.pos = true)
    (hm : commentMatchesDirective c.text = true) :
    lineSuppressed (processComment file c st).suppressedLines file (c.line0 + 2) = true := by
  unfold processComment
  rw [if_neg hp]
  dsimp only
  unfold commentMatchesDirective at hm
  cases hd : directiveMatch c.text with
  | none =>
    rw [hd] at hm
    simp at hm
  | some cap =>
    simp only
    exact lineSuppressed_addSuppressedLine file (c.line0 + 2) st.suppressedLines

/-! The run-level de-duplication machinery: `dedupInv` is preserved by every
step of the traversal, so the usage diagnostics of a whole run are
attributed one-to-one to pairwise distinct (file, line, displayName)
keys. -/

theorem contains_append_left (l l2 : List String) (k : String)
    (h : l.contains k = true) : (l ++ l2).contains k = true := by
  have h2 : k ∈ l := by simpa using h
  have h3 : k ∈ l ++ l2 := List.mem_append_left _ h2
  simpa using h3

theorem maybeAddWarning_warnings_cases (file dn : String) (l1 c1 : Nat)
    (r : Option String) (st : ScanState) :
    (maybeAddWarning file dn l1 c1 r st).warnings = st.warnings ∨
      (maybeAddWarning file dn l1 c1 r st).warnings =
        st.warnings ++ [{ file := file, line := some l1, column := some c1,
                          message := pmax001Message dn r }] := by
  unfold maybeAddWarning
  by_cases h : lineSuppressed st.suppressedLines file l1
  · simp [h]
  · rw [if_neg h]
    dsimp only
    split
    · exact .inl rfl
    · exact .inr rfl

theorem dedupInv_maybeAdd (file dn : String) (l1 c1 : Nat) (r : Option String)
    (st : ScanState) (ks : List (String × Nat × String))
    (hf : List.Forall₂ attributedTo ks st.warnings) (hnd : ks.Nodup)
    (hmem : ∀ k ∈ ks, st.checkedLocations.contains (locationKey k.1 k.2.1 k.2.2) = true)
    (hfresh : (file, l1, dn) ∉ ks)
    (hkey : st.checkedLocations.contains (locationKey file l1 dn) = true) :
    dedupInv (maybeAddWarning file dn l1 c1 r st) := by
  have hchk := maybeAddWarning_checked file dn l1 c1 r st
  rcases maybeAddWarning_warnings_cases file dn l1 c1 r st with hw | hw
  · refine ⟨ks, ?_, hnd, ?_⟩
    · rw [hw]
      exact hf
    · intro k hk
      rw [hchk]
      exact hmem k hk
  · refine ⟨ks ++ [(file, l1, dn)], ?_, ?_, ?_⟩
    · rw [hw]
      refine List.rel_append hf (List.Forall₂.cons ?_ List.Forall₂.nil)
      exact ⟨rfl, rfl, r, rfl⟩
    · refine List.Nodup.append hnd (List.nodup_singleton _) ?_
      intro a ha hb
      rw [List.mem_singleton] at hb
      subst hb
      exact hfresh ha
    · intro k hk
      rw [hchk]
      rcases List.mem_append.mp hk with h | h
      · exact hmem k h
      · rw [List.mem_singleton] at h
        subst h
        exact hkey

theorem hsu_dedupInv (file : String) (s : Symbol) (m : NodeMeta) (st : ScanState)
    (h : dedupInv st) : dedupInv (handleSymbolUsage file s m st) := by
  by_cases hk : locationKey file (m.line0 + 1) s.name ∈ st.checkedLocations
  · rw [hsu_already_checked file s m st (by simpa using hk)]
    exact h
  · obtain ⟨ks, hf, hnd, hmem⟩ := h
    have hfresh : (file, m.line0 + 1, s.name) ∉ ks := by
      intro hin
      have h2 := hmem _ hin
      simp at h2
      exact hk h2
    have hksm : ∀ k ∈ ks,
        (markChecked st (locationKey file (m.line0 + 1) s.name)).checkedLocations.contains
          (locationKey k.1 k.2.1 k.2.2) = true := by
      intro k hkin
      show (st.checkedLocations ++ [locationKey file (m.line0 + 1) s.name]).contains
        (locationKey k.1 k.2.1 k.2.2) = true
      exact contains_append_left _ _ _ (hmem k hkin)
    have hkeym : (markChecked st
        (locationKey file (m.line0 + 1) s.name)).checkedLocations.contains
        (locationKey file (m.line0 + 1) s.name) = true := by
      simp [markChecked]
    have hfm : List.Forall₂ attributedTo ks
        (markChecked st (locationKey file (m.line0 + 1) s.name)).warnings := hf
    unfold handleSymbolUsage
    cases hdm : getDeprecationMessage s with
    | some v =>
      simp only [hdm]
      simp [hk]
      exact dedupInv_maybeAdd file s.name (m.line0 + 1) (m.col0 + 1) (some v)
        (markChecked st (locationKey file (m.line0 + 1) s.name)) ks hfm hnd hksm hfresh hkeym
    | none =>
      simp only [hdm]
      simp [hk]
      by_cases hL : s.hasValueDecl = true ∧ s.legacyDeprecated = true
      · rw [if_pos hL]
        exact dedupInv_maybeAdd file s.name (m.line0 + 1) (m.col0 + 1) none
          (markChecked st (locationKey file (m.line0 + 1) s.name)) ks hfm hnd hksm hfresh hkeym
      · rw [if_neg hL]
        exact ⟨ks, hfm, hnd, hksm⟩

theorem hsuOpt_dedupInv (file : String) (s? : Option Symbol) (m : NodeMeta) (st : ScanState)
    (h : dedupInv st) : dedupInv (handleSymbolUsageOpt file s? m st) := by
  cases s? with
  | none => exact h
  | some s => exact hsu_dedupInv file s m st h

theorem visit_dedupInv (file : String) (node : Node) :
    ∀ (ctx : VisitCtx) (st : ScanState), dedupInv st → dedupInv (visit file ctx node st) := by
  induction node with
  | ident m s? =>
    intro ctx st h
    exact hsuOpt_dedupInv _ _ _ _ h
  | propAccess m e s? ih =>
    intro ctx st h
    simp only [visit]
    apply ih
    cases hc : ctx.isCalleeOfCallNew
    · rw [if_neg (by simp)]
      exact hsuOpt_dedupInv _ _ _ _ h
    · rw [if_pos rfl]
      exact h
  | callExpr m callee args ih1 ih2 =>
    intro ctx st h
    simp only [visit]
    exact ih2 _ _ (ih1 _ _ (hsuOpt_dedupInv _ _ _ _ h))
  | newExpr m callee args ih1 ih2 =>
    intro ctx st h
    simp only [visit]
    exact ih2 _ _ (ih1 _ _ (hsuOpt_dedupInv _ _ _ _ h))
  | functionDecl m nameSym body ih =>
    intro ctx st h
    simp only [visit]
    by_cases hs : skipFromSym nameSym = true
    · rw [if_pos hs]
      exact h
    · rw [if_neg hs]
      exact ih _ _ h
  | functionExpr m body ih =>
    intro ctx st h
    simp only [visit]
    by_cases hs : skipFromSym ctx.varSym = true
    · rw [if_pos hs]
      exact h
    · rw [if_neg hs]
      exact ih _ _ h
  | arrowFunction m body ih =>
    intro ctx st h
    simp only [visit]
    by_cases hs : skipFromSym ctx.varSym = true
    · rw [if_pos hs]
      exact h
    · rw [if_neg hs]
      exact ih _ _ h
  | methodDecl m nameSym body ih =>
    intro ctx st h
    simp only [visit]
    by_cases hs : skipFromSym nameSym = true
    · rw [if_pos hs]
      exact h
    · rw [if_neg hs]
      exact ih _ _ h
  | constructorDecl m body ih =>
    intro ctx st h
    simp only [visit]
    by_cases hs : skipFromSym ctx.classSym = true
    · rw [if_pos hs]
      exact h
    · rw [if_neg hs]
      exact ih _ _ h
  | classDecl m nameSym members ih =>
    intro ctx st h
    simp only [visit]
    exact ih _ _ h
  | variableDecl m nameSym ini ih =>
    intro ctx st h
    simp only [visit]
    exact ih _ _ h
  | exportDecl m specs ih =>
    intro ctx st h
    simp only [visit]
    by_cases hs : hasDeprecatedLeadingJsDoc m = true
    · rw [if_pos hs]
      exact h
    · rw [if_neg hs]
      exact ih _ _ h
  | exportSpec m localSym =>
    intro ctx st h
    simp only [visit]
    by_cases hs : hasDeprecatedAdjacentComment m = true
    · rw [if_pos hs]
      exact h
    · rw [if_neg hs]
      exact hsuOpt_dedupInv _ _ _ _ h
  | importSpec m localSym =>
    intro ctx st h
    simp only [visit]
    exact hsuOpt_dedupInv _ _ _ _ h
  | typeAliasDecl m nameSym body ih =>
    intro ctx st h
    simp only [visit]
    by_cases hs : skipFromSym nameSym = true
    · rw [if_pos hs]
      exact h
    · rw [if_neg hs]
      by_cases hj : hasDeprecatedLeadingJsDoc m = true
      · rw [if_pos hj]
        exact h
      · rw [if_neg hj]
        exact ih _ _ h
  | exprStmt m c ih =>
    intro ctx st h
    simp only [visit]
    exact ih _ _ h
  | seqNil =>
    intro ctx st h
    exact h
  | seqCons hd tl ih1 ih2 =>
    intro ctx st h
    simp only [visit]
    exact ih2 _ _ (ih1 _ _ h)

theorem processComment_checked (file : String) (c : CommentRange) (st : ScanState) :
    (processComment file c st).checkedLocations = st.checkedLocations := by
  unfold processComment
  by_cases h : c.pos ∈ st.processedComments
  · simp [h]
  · rw [if_neg (by simpa using h)]
    dsimp only
    cases hd : directiveMatch c.text <;> simp

theorem processLeading_checked (file : String) (m : NodeMeta) (st : ScanState) :
    (processLeading file m st).checkedLocations = st.checkedLocations := by
  unfold processLeading
  exact foldl_preserve (fun x => x.checkedLocations = st.checkedLocations)
    (fun s c => processComment file c s)
    (fun s c hs => by
      show (processComment file c s).checkedLocations = st.checkedLocations
      rw [processComment_checked]
      exact hs)
    m.leading st rfl

theorem scanNode_checked (file : String) (node : Node) :
    ∀ st : ScanState, (scanNode file node st).checkedLocations = st.checkedLocations := by
  induction node <;> intro st <;>
    simp [scanNode, processLeading_checked, *]

theorem dedupInv_of_eq (st st2 : ScanState) (hw : st2.warnings = st.warnings)
    (hc : st2.checkedLocations = st.checkedLocations) (h : dedupInv st) : dedupInv st2 := by
  obtain ⟨ks, hf, hnd, hmem⟩ := h
  refine ⟨ks, ?_, hnd, ?_⟩
  · rw [hw]
    exact hf
  · intro k hk
    rw [hc]
    exact hmem k hk

theorem scanFileState_dedupInv (f : SourceFile) (st : ScanState) (h : dedupInv st) :
    dedupInv (scanFileState f st) := by
  unfold scanFileState
  dsimp only
  refine foldl_preserve dedupInv (fun s n => visit f.fileName {} n s)
    (fun s n hs => visit_dedupInv f.fileName n {} s hs) f.roots _ ?_
  refine foldl_preserve dedupInv (fun s n => scanNode f.fileName n s) ?_ f.roots _ ?_
  · intro s n hs
    exact dedupInv_of_eq s (scanNode f.fileName n s) (scanNode_warnings f.fileName n s)
      (scanNode_checked f.fileName n s) hs
  · exact dedupInv_of_eq st { st with processedComments := [] } rfl rfl h

theorem checkDeprecatedUsage_run_dedup (prog : Program) :
    ∃ (obs unu : List PrettierError) (ks : List (String × Nat × String)),
      checkDeprecatedUsage prog = obs ++ unu ∧
      (∀ u ∈ unu, u.message = pmax002Message) ∧
      List.Forall₂ attributedTo ks obs ∧ ks.Nodup := by
  have hfold : dedupInv (prog.files.foldl
      (fun st f => if includesNodeModules f.fileName.toList || f.isDeclarationFile then st
        else scanFileState f st) {}) := by
    refine foldl_preserve dedupInv
      (fun st f => if includesNodeModules f.fileName.toList || f.isDeclarationFile then st
        else scanFileState f st) ?_ prog.files {} ?_
    · intro s f hs
      dsimp only
      split
      · exact hs
      · exact scanFileState_dedupInv f s hs
    · exact ⟨[], List.Forall₂.nil, List.nodup_nil, by simp⟩
  obtain ⟨ks, hf, hnd, hmem⟩ := hfold
  refine ⟨(prog.files.foldl
      (fun st f => if includesNodeModules f.fileName.toList || f.isDeclarationFile then st
        else scanFileState f st) {}).warnings,
    unusedDiagsFor prog
      (prog.files.foldl
        (fun st f => if includesNodeModules f.fileName.toList || f.isDeclarationFile then st
          else scanFileState f st) {}).usedSuppressions
      (prog.files.foldl
        (fun st f => if includesNodeModules f.fileName.toList || f.isDeclarationFile then st
          else scanFileState f st) {}).suppressedLines,
    ks, ?_, ?_, hf, hnd⟩
  · rfl
  · intro u hu
    exact unusedDiagsFor_msg prog _ _ u hu

/-! ## Claim theorems -/

/-- C1 (counterexample).  The claim asserts that whenever the enclosing
function-like declaration's own symbol is obsolete per the section 4.2
resolver (documentation tag OR legacy modifier flag), no usage inside its
body produces any diagnostic.  Function A of `progC1` is obsolete per that
resolver through the legacy flag alone (`isObsoleteSpec symA1 = true`), yet
the call to the tag-deprecated B inside A's body still yields a diagnostic:
the code's skip test only fires on a deprecation message derived from a
documentation tag with defined text. -/
theorem C1_counterexample :
    isObsoleteSpec symA1 = true ∧
    checkDeprecatedUsage progC1 =
      [{ file := "c1.ts", line := some 2, column := some 3,
         message := pmax001Message "B" (some "use C") }] := by
  exact ⟨by decide, by decide⟩

/-- C1 (amended).  For a function declaration, function expression, arrow
function, method declaration, or constructor declaration, the traversal
skips the whole subtree exactly when the enclosing declaration's resolved
symbol has a deprecation message derived from its documentation tag (tag
present with defined text); in that case no state change at all occurs, so
no usage inside the body produces a diagnostic.  Obsolescence through the
legacy modifier flag alone does not trigger the skip (see the
counterexample). -/
theorem C1_skip (file : String) (ctx : VisitCtx) (node : Node) (st : ScanState)
    (s : Symbol) (msg : String)
    (h1 : isFunctionLike node = true)
    (h2 : enclosingFuncSymbol ctx node = some s)
    (h3 : getDeprecationMessage s = some msg) :
    visit file ctx node st = st := by
  cases node <;> simp_all [visit, enclosingFuncSymbol, isFunctionLike, skipFromSym]

/-- C1 (witness). -/
theorem C1_skip_witness : visit "w.ts" {} nodeC1w {} = ({} : ScanState) :=
  C1_skip "w.ts" {} nodeC1w {} symW1 "old" rfl rfl rfl

/-- C2.  A suppressed obsolete usage adds no diagnostic and marks the
directive consumed; a consumed directive never produces a PMAX002
diagnostic in the reconciliation pass; and concretely, a directive over an
obsolete call yields zero diagnostics while a directive over a
non-obsolete call yields exactly one UNUSED_SUPPRESSION diagnostic and
zero OBSOLETE_USAGE diagnostics. -/
theorem C2_suppression :
    (∀ (file : String) (s : Symbol) (m : NodeMeta) (st : ScanState),
        lineSuppressed st.suppressedLines file (m.line0 + 1) = true →
        codeObsolete s = true →
        locationKey file (m.line0 + 1) s.name ∉ st.checkedLocations →
        (handleSymbolUsage file s m st).warnings = st.warnings ∧
        (handleSymbolUsage file s m st).usedSuppressions.contains
          (suppressionKey file (m.line0 + 1)) = true) ∧
    (∀ (prog : Program) (used : List String) (entries : List (String × List Nat))
        (f : String) (l : Nat), 2 ≤ l →
        (∀ e ∈ entries, ∀ lp ∈ e.2, 2 ≤ lp) →
        used.contains (suppressionKey f l) = true →
        pmax002Diag f l ∉ unusedDiagsFor prog used entries) ∧
    checkDeprecatedUsage progC2a = [] ∧
    (checkDeprecatedUsageState progC2a).usedSuppressions = ["c2a.ts:2"] ∧
    checkDeprecatedUsage progC2b = [pmax002Diag "c2b.ts" 2] := by
  refine ⟨?_, ?_, by decide, by decide, by decide⟩
  · intro file s m st h hobs hk
    exact ⟨hsu_suppressed_warnings file s m st h,
      hsu_suppressed_consumed file s m st h hobs hk⟩
  · intro prog used entries f l hl hmin hused
    exact unusedDiagsFor_absent prog used entries f l hl hmin hused

/-- C2 (witness). -/
theorem C2_suppression_witness :
    ((handleSymbolUsage "s.ts" symDep2 {} stC2w).warnings = stC2w.warnings ∧
      (handleSymbolUsage "s.ts" symDep2 {} stC2w).usedSuppressions.contains
        (suppressionKey "s.ts" 1) = true) ∧
    pmax002Diag "s.ts" 2 ∉ unusedDiagsFor { files := [] } ["s.ts:2"] [("s.ts", [2])] :=
  ⟨C2_suppression.1 "s.ts" symDep2 {} stC2w (by decide) (by decide) (by decide),
   C2_suppression.2.1 { files := [] } ["s.ts:2"] [("s.ts", [2])] "s.ts" 2 (by decide)
     (by decide) (by decide)⟩

/-- C3 (counterexample).  The claim says a directive is registered if and
only if the comment is a single-line two-slash comment anchored on the
token, optionally followed by a colon note, and that block comments never
register.  Both directions fail on the code: a block comment containing a
full inner line of directive form does register (the regex carries the
multiline flag), and a two-slash comment whose token is directly followed
by further word characters also registers (the regex accepts any suffix).
The final conjunct shows the block comment of `progC3` (line 2) and the
no-colon comment (line 10) actually registering protected lines 3 and 11. -/
theorem C3_counterexample :
    commentMatchesDirective blockDirectiveText = true ∧
    specDirectiveGrammar blockDirectiveText = false ∧
    commentMatchesDirective noColonDirectiveText = true ∧
    specDirectiveGrammar noColonDirectiveText = false ∧
    (checkDeprecatedUsageState progC3).suppressedLines = [("c3.ts", [3, 11])] := by
  exact ⟨by decide, by decide, by decide, by decide, by decide⟩

/-- C3 (amended).  The scanner registers a directive for a comment exactly
when, at the start of its text or immediately after a line terminator, the
text continues with two slashes, a possibly line-crossing run of JavaScript
regex whitespace, and the directive token followed by an arbitrary suffix:
an anchored single-line comment (with or without a colon note) registers, a
multi-line block comment whose slash pair, whitespace run and token are
spread across lines registers too (the regex whitespace class spans line
breaks and the multiline flag re-anchors after every line terminator),
while a comment that merely mentions the token mid-prose and a single-line
block comment do not. -/
theorem C3_directive_grammar :
    (∀ text : String, commentMatchesDirective text = true ↔
      ∃ pre ws rest,
        text.toList = pre ++ ('/' :: '/' :: (ws ++ (directiveTokenChars ++ rest))) ∧
        ws.all jsRegexSpace = true ∧
        (pre = [] ∨ ∃ p c, pre = p ++ [c] ∧ jsLineTerminator c = true)) ∧
    commentMatchesDirective "// @prettier-max-ignore-deprecated" = true ∧
    commentMatchesDirective "// @prettier-max-ignore-deprecated: note text" = true ∧
    commentMatchesDirective "/*\n//\n@prettier-max-ignore-deprecated\n*/" = true ∧
    commentMatchesDirective "// Check for @prettier-max-ignore-deprecated directive" = false ∧
    commentMatchesDirective "/* @prettier-max-ignore-deprecated */" = false := by
  exact ⟨commentMatchesDirective_iff, by decide, by decide, by decide, by decide, by decide⟩

/-- C3 (witness for the characterization). -/
theorem C3_directive_grammar_witness :
    ∃ pre ws rest,
      "// @prettier-max-ignore-deprecated: x".toList =
        pre ++ ('/' :: '/' :: (ws ++ (directiveTokenChars ++ rest))) ∧
      ws.all jsRegexSpace = true ∧
      (pre = [] ∨ ∃ p c, pre = p ++ [c] ∧ jsLineTerminator c = true) :=
  (C3_directive_grammar.1 "// @prettier-max-ignore-deprecated: x").mp (by decide)

/-- C4.  A registered directive for a comment starting on 0-based line c
(1-based line L = c + 1) protects line c + 2 = L + 1; every diagnostic the
reconciliation pass emits points at the directive's own line
(protected line − 1) with column 1; and the concrete unused directive of
`progC4`, whose comment sits on 1-based line 2, protects line 3 and is
reported at line 2, column 1. -/
theorem C4_anchoring :
    (∀ (file : String) (c : CommentRange) (st : ScanState),
        ¬ st.processedComments.contains c.pos = true →
        commentMatchesDirective c.text = true →
        lineSuppressed (processComment file c st).suppressedLines file (c.line0 + 2) = true) ∧
    (∀ (prog : Program) (used : List String) (entries : List (String × List Nat))
        (d : PrettierError), d ∈ unusedDiagsFor prog used entries →
        ∃ f l, (∃ e ∈ entries, e.1 = f ∧ l ∈ e.2) ∧
          used.contains (suppressionKey f l) = false ∧
          (getSourceFile prog f).isSome = true ∧
          d = pmax002Diag f l ∧ d.line = some (l - 1) ∧ d.column = some 1) ∧
    (checkDeprecatedUsageState progC4).suppressedLines = [("c4.ts", [3])] ∧
    checkDeprecatedUsage progC4 =
      [{ file := "c4.ts", line := some 2, column := some 1, message := pmax002Message }] := by
  refine ⟨processComment_registers, ?_, by decide, by decide⟩
  · intro prog used entries d hd
    rcases unusedDiagsFor_shape prog used entries d hd with ⟨f, l, h1, h2, h3, h4⟩
    exact ⟨f, l, h1, h2, h3, h4, by rw [h4]; rfl, by rw [h4]; rfl⟩

/-- C4 (witness). -/
theorem C4_anchoring_witness :
    lineSuppressed (processComment "c4w.ts"
      { pos := 0, line0 := 4, text := "// @prettier-max-ignore-deprecated" }
      {}).suppressedLines "c4w.ts" 6 = true :=
  C4_anchoring.1 "c4w.ts"
    { pos := 0, line0 := 4, text := "// @prettier-max-ignore-deprecated" } {}
    (by decide) (by decide)

/-- C5 (counterexample).  The claim's "equivalently at most one per
(file, line, column)" clause fails: in `progC5` the property access a.b and
its object identifier a start at the same position, resolve to symbols with
distinct display names, and each produces its own OBSOLETE_USAGE
diagnostic — two diagnostics with identical file, line, and column. -/
theorem C5_counterexample :
    checkDeprecatedUsage progC5 =
      [{ file := "c5.ts", line := some 1, column := some 1,
         message := pmax001Message "b" (some "old prop") },
       { file := "c5.ts", line := some 1, column := some 1,
         message := pmax001Message "a" (some "old obj") }] ∧
    pmax001Message "b" (some "old prop") ≠ pmax001Message "a" (some "old obj") := by
  exact ⟨by decide, by decide⟩

/-- C5 (amended).  De-duplication holds per (file, line, displayName) at
run level: the diagnostic list any analysis run returns splits into the
usage diagnostics followed by the unused-directive (PMAX002) diagnostics,
and the usage diagnostics are attributed in order, one-to-one, to pairwise
distinct (file, line, displayName) keys — each carries that key's file and
line and the PMAX001 message of that key's display name, so the run emits
at most one OBSOLETE_USAGE diagnostic per unique key.  Mechanically, a
usage whose key is already in the checked-locations set changes nothing,
and a processed usage always records its key.  The per-(file, line, column)
variant claimed as equivalent does not hold (see the counterexample). -/
theorem C5_dedup :
    (∀ prog : Program, ∃ (obs unu : List PrettierError)
        (ks : List (String × Nat × String)),
        checkDeprecatedUsage prog = obs ++ unu ∧
        (∀ u ∈ unu, u.message = pmax002Message) ∧
        List.Forall₂ attributedTo ks obs ∧ ks.Nodup) ∧
    (∀ (file : String) (s : Symbol) (m : NodeMeta) (st : ScanState),
        st.checkedLocations.contains (locationKey file (m.line0 + 1) s.name) = true →
        handleSymbolUsage file s m st = st) ∧
    (∀ (file : String) (s : Symbol) (m : NodeMeta) (st : ScanState),
        (handleSymbolUsage file s m st).checkedLocations.contains
          (locationKey file (m.line0 + 1) s.name) = true) :=
  ⟨checkDeprecatedUsage_run_dedup, hsu_already_checked, hsu_checked_after⟩

/-- C5 (witness). -/
theorem C5_dedup_witness : handleSymbolUsage "d.ts" symA5 {} stDup = stDup :=
  C5_dedup.2.1 "d.ts" symA5 {} stDup (by decide)

/-- C6.  Every diagnostic a usage adds has message
PMAX001: 'name' is deprecated with the reason suffix appended exactly when
the resolved deprecation message is defined and non-empty; every
diagnostic of a whole run is PMAX001- or PMAX002-shaped; and concretely a
symbol tagged with "Use Z instead" yields a message containing
"is deprecated: Use Z instead" while a symbol whose deprecated tag has no
text yields a message ending in "is deprecated" with no trailing colon. -/
theorem C6_message_format :
    (∀ (file : String) (s : Symbol) (m : NodeMeta) (st : ScanState) (w : PrettierError),
        w ∈ (handleSymbolUsage file s m st).warnings → w ∉ st.warnings →
        w.message = pmax001Message s.name (getDeprecationMessage s)) ∧
    (∀ (prog : Program) (w : PrettierError), w ∈ checkDeprecatedUsage prog →
        (∃ n r, w.message = pmax001Message n r) ∨ w.message = pmax002Message) ∧
    (∀ n : String, pmax001Message n none =
      "PMAX001: " ++ squote ++ n ++ squote ++ " is deprecated") ∧
    (∀ (n r : String), r ≠ "" → pmax001Message n (some r) =
      "PMAX001: " ++ squote ++ n ++ squote ++ " is deprecated: " ++ r) ∧
    (∀ n : String, pmax001Message n (some "") = pmax001Message n none) ∧
    checkDeprecatedUsage progC6a =
      [{ file := "c6a.ts", line := some 1, column := some 1,
         message := "PMAX001: " ++ squote ++ "f" ++ squote ++
           " is deprecated: Use Z instead" }] ∧
    checkDeprecatedUsage progC6b =
      [{ file := "c6b.ts", line := some 1, column := some 1,
         message := "PMAX001: " ++ squote ++ "g" ++ squote ++ " is deprecated" }] := by
  refine ⟨?_, checkDeprecatedUsage_forms, ?_, ?_, ?_, by decide, by decide⟩
  · intro file s m st w hw hnot
    rcases hsu_mem file s m st w hw with h | ⟨h1, _⟩
    · exact absurd h hnot
    · rw [h1]
  · intro n
    simp [pmax001Message]
  · intro n r hr
    unfold pmax001Message
    dsimp only
    rw [if_neg (by simpa using hr)]
    have hlit : ∀ x : String, " is deprecated" ++ (": " ++ x) = " is deprecated: " ++ x := by
      intro x
      rw [← String.append_assoc]
      rfl
    simp [String.append_assoc, hlit]
  · intro n
    rfl

/-- C6 (witness). -/
theorem C6_message_format_witness :
    ({ file := "wf.ts", line := some 1, column := some 1,
       message := pmax001Message "dep" (getDeprecationMessage symDep2) }
        : PrettierError).message =
      pmax001Message symDep2.name (getDeprecationMessage symDep2) ∧
    pmax001Message "q" (some "use p") =
      "PMAX001: " ++ squote ++ "q" ++ squote ++ " is deprecated: use p" :=
  ⟨C6_message_format.1 "wf.ts" symDep2 {} {} _ (by decide) (by decide),
   C6_message_format.2.2.2.1 "q" "use p" (by decide)⟩

/-- C7.  The obsolescence resolver never propagates an exception: a symbol
whose documentation-tag fetch throws (modelled as `tags = none`) resolves
to no deprecation message, and the usage handler treats it exactly like a
symbol with no tags at all, judging it only by the legacy modifier flag; a
node whose symbol lookup fails is not a usage and leaves the state
unchanged; and the scan continues past such nodes, as the concrete run
shows (the failed lookup on line 1 of progC7 is skipped while the
throwing-tags symbol on line 2 is still reported through its legacy
flag). -/
theorem C7_resolver_recovery :
    (∀ s : Symbol, s.tags = none → getDeprecationMessage s = none) ∧
    (∀ (n : String) (leg hv : Bool) (al : Option Symbol) (file : String)
        (m : NodeMeta) (st : ScanState),
        handleSymbolUsage file (Symbol.mk n none leg hv al) m st =
        handleSymbolUsage file (Symbol.mk n (some []) leg hv al) m st) ∧
    (∀ (file : String) (m : NodeMeta) (st : ScanState),
        handleSymbolUsageOpt file none m st = st) ∧
    checkDeprecatedUsage progC7 =
      [{ file := "c7.ts", line := some 2, column := some 1,
         message := pmax001Message "h" none }] := by
  refine ⟨?_, ?_, fun _ _ _ => rfl, by decide⟩
  · intro s h
    unfold getDeprecationMessage
    rw [h]
  · intro n leg hv al file m st
    rfl

/-- C7 (witness). -/
theorem C7_resolver_recovery_witness :
    getDeprecationMessage symThrow7 = none :=
  C7_resolver_recovery.1 symThrow7 rfl

/-- C8 (counterexample).  The claim says runTypeScriptCheck reports a
non-fatal warning to the caller before skipping.  In the source, the
branch taken when the TypeScript module fails to load returns the
successful empty result without a single logger call: the reported message
list is empty.  The skip warning the user sees is logged by the plugin
wrapper in index.ts, which separately probes availability via
getTypeScriptVersion, not by runTypeScriptCheck. -/
theorem C8_counterexample :
    runTypeScriptCheck none true =
      ({ success := true, errors := [], formattedFiles := [] }, []) := rfl

/-- C8 (amended).  When the TypeScript module cannot be loaded,
runTypeScriptCheck skips the whole validation and returns a successful
result with an empty errors list, reporting nothing itself — the
non-fatal availability warning is emitted by the plugin caller, not by
this function. -/
theorem C8_skip_when_ts_missing :
    ∀ detectDeprecated : Bool,
      runTypeScriptCheck none detectDeprecated =
        ({ success := true, errors := [], formattedFiles := [] }, []) :=
  fun _ => rfl

/-- C9.  The per-line suppression lookup is applied independently to every
usage: any usage on a protected line adds no diagnostic, and every
obsolete unchecked usage on it re-marks the directive consumed.  In the
concrete run, one directive silences both deprecated usages (distinct
display names x and y) on its protected line — both are processed (two
checked locations, two suppression logs), zero diagnostics result, and the
directive is consumed. -/
theorem C9_per_usage_suppression :
    (∀ (file : String) (s? : Option Symbol) (m : NodeMeta) (st : ScanState),
        lineSuppressed st.suppressedLines file (m.line0 + 1) = true →
        (handleSymbolUsageOpt file s? m st).warnings = st.warnings) ∧
    (∀ (file : String) (s : Symbol) (m : NodeMeta) (st : ScanState),
        lineSuppressed st.suppressedLines file (m.line0 + 1) = true →
        codeObsolete s = true →
        locationKey file (m.line0 + 1) s.name ∉ st.checkedLocations →
        (handleSymbolUsage file s m st).usedSuppressions.contains
          (suppressionKey file (m.line0 + 1)) = true) ∧
    checkDeprecatedUsage progC9 = [] ∧
    (checkDeprecatedUsageState progC9).usedSuppressions = ["c9.ts:2"] ∧
    (checkDeprecatedUsageState progC9).checkedLocations = ["c9.ts:2:x", "c9.ts:2:y"] ∧
    (checkDeprecatedUsageState progC9).logs =
      ["Found suppression directive at c9.ts:1",
       "Suppressed deprecated warning for " ++ squote ++ "x" ++ squote ++ " at c9.ts:2",
       "Suppressed deprecated warning for " ++ squote ++ "y" ++ squote ++ " at c9.ts:2"] := by
  refine ⟨hsuOpt_suppressed_warnings, ?_, by decide, by decide, by decide, by decide⟩
  intro file s m st h hobs hk
  exact hsu_suppressed_consumed file s m st h hobs hk

/-- C9 (witness). -/
theorem C9_witness :
    (handleSymbolUsageOpt "s.ts" (some symX9) {} stC2w).warnings = stC2w.warnings :=
  C9_per_usage_suppression.1 "s.ts" (some symX9) {} stC2w (by decide)

/-- C10.  An export specifier with any adjacent comment (leading or
trailing) containing the deprecated token is skipped entirely — the visit
leaves the state untouched, so no usage diagnostic fires for the
specifier — even when the enclosing export declaration carries no
deprecated documentation of its own; without such a comment the same
specifier reports the aliased deprecated original. -/
theorem C10_export_comment_skip :
    (∀ (file : String) (ctx : VisitCtx) (m : NodeMeta) (localSym : Option Symbol)
        (st : ScanState), hasDeprecatedAdjacentComment m = true →
        visit file ctx (Node.exportSpec m localSym) st = st) ∧
    checkDeprecatedUsage progC10a = [] ∧
    checkDeprecatedUsage progC10b =
      [{ file := "c10.ts", line := some 1, column := some 10,
         message := pmax001Message "fOrig" (some "moved") }] := by
  refine ⟨?_, by decide, by decide⟩
  intro file ctx m localSym st h
  simp only [visit]
  rw [if_pos h]

/-- C10 (witness). -/
theorem C10_witness :
    visit "e.ts" {}
      (Node.exportSpec
        { trailing := [{ pos := 0, line0 := 0, text := "// @deprecated" }] }
        (some symOrig10)) {} = ({} : ScanState) :=
  C10_export_comment_skip.1 "e.ts" {}
    { trailing := [{ pos := 0, line0 := 0, text := "// @deprecated" }] }
    (some symOrig10) {} (by decide)

end PrettierMax
